import Mathlib

/-!
Verification development for the Evidence Coverage and Recommendation
Calibration Engine (src/lib/report.ts and src/lib/coverage.ts).

The TypeScript code is shallowly embedded below.  JavaScript numbers are
modelled as rationals (ℚ): every numeric value the engine manipulates is a
finite number, `Number.isFinite` guards therefore always succeed on the
`num` constructor, and non-finite inputs are simply not representable.
Untrusted JSON-like payloads are modelled by the inductive type `Json`
(with an `undef` constructor for JavaScript's `undefined`, the result of
reading an absent object property).  The two JavaScript primitives that
cannot be modelled exactly over ℚ — `Number(string)` parsing and
number-to-string formatting (`toFixed`, template interpolation) — are
abstracted in a `JsStringPrims` record; every universally quantified
theorem quantifies over all such records, so it in particular covers the
real JavaScript behaviour, and concrete witnesses instantiate them with
simple total functions (the witness inputs never exercise those
primitives in a way that distinguishes implementations).
-/

namespace VoiceReport

/-- Abstracted JavaScript string/number conversion primitives. -/
structure JsStringPrims where
  /-- Models `Number(s)` when the result is finite, `none` otherwise. -/
  parseNumber : String → Option ℚ
  /-- Models JavaScript number-to-string conversion in template literals. -/
  numToString : ℚ → String
  /-- Models `x.toFixed(2)`. -/
  toFixed2 : ℚ → String
  /-- Models `x.toFixed(0)`. -/
  toFixed0 : ℚ → String

/-- Concrete instantiation of the abstract string primitives used by
witnesses and counterexamples (their inputs contain no numeric strings, so
any instantiation produces the same JavaScript-faithful results). -/
def defaultPrims : JsStringPrims where
  parseNumber := fun _ => none
  numToString := fun q => toString q
  toFixed2 := fun q => toString q
  toFixed0 := fun q => toString q

/-- Model of arbitrary untrusted JSON-like JavaScript values (`unknown`). -/
inductive Json where
  | undef : Json
  | null : Json
  | bool (b : Bool) : Json
  | num (q : ℚ) : Json
  | str (s : String) : Json
  | arr (elems : List Json) : Json
  | obj (fields : List (String × Json)) : Json

namespace Json

/-- Models JavaScript property access `value[key]`: first matching key of an
object (JavaScript object keys are unique), canonical numeric index of an
array, `undefined` otherwise. -/
def getField : Json → String → Json
  | obj fs, k => (((fs.find? (fun p => p.1 == k)).map Prod.snd).getD undef)
  | arr es, k =>
    match k.toNat? with
    | some n => if Nat.repr n == k then (es.get? n).getD undef else undef
    | none => undef
  | _, _ => undef

/-- Models `typeof value === "string"` combined with reading the string. -/
def asString? : Json → Option String
  | str s => some s
  | _ => none

/-- Models `Array.isArray(value)` combined with reading the elements. -/
def asArray? : Json → Option (List Json)
  | arr es => some es
  | _ => none

end Json

/-- Models JavaScript `String.prototype.trim` (drop leading and trailing
whitespace), implemented over the character list so that the kernel can
evaluate it. -/
def jsTrim (s : String) : String :=
  String.mk (((s.data.dropWhile Char.isWhitespace).reverse.dropWhile
    Char.isWhitespace).reverse)

/-- Helper splitting a character list into maximal non-whitespace runs. -/
def wordRuns : List Char → List Char → List (List Char)
  | [], acc => if acc.isEmpty then [] else [acc.reverse]
  | c :: rest, acc =>
    if c.isWhitespace then
      if acc.isEmpty then wordRuns rest [] else acc.reverse :: wordRuns rest []
    else wordRuns rest (c :: acc)

/-- Models `text.trim().split(/\s+/)` followed by trimming and dropping
empty words: the list of maximal non-whitespace runs. -/
def jsWords (s : String) : List String :=
  (wordRuns s.data []).map String.mk

/-- Kernel-computable `String.intercalate`. -/
def joinWith (sep : String) : List String → String
  | [] => ""
  | [x] => x
  | x :: y :: rest => x ++ sep ++ joinWith sep (y :: rest)

/-- Source: `isRecord` — `typeof value === "object" && value !== null`.
JavaScript arrays also have `typeof` equal to `"object"`. -/
def isRecord : Json → Bool
  | Json.obj _ => true
  | Json.arr _ => true
  | _ => false

/-- Source: `isNonEmptyString` — string with non-empty trimmed content. -/
def isNonEmptyString : Json → Bool
  | Json.str s => (jsTrim s).length > 0
  | _ => false

/-- Models `Math.max` on finite numbers (definitionally an `if`, so that the
kernel can evaluate it; equal to `max` by `mathMax_eq`). -/
def mathMax (a b : ℚ) : ℚ :=
  if a ≤ b then b else a

/-- Models `Math.min` on finite numbers. -/
def mathMin (a b : ℚ) : ℚ :=
  if a ≤ b then a else b

/-- Lemma: `mathMax` agrees with the order-theoretic `max`. -/
theorem mathMax_eq (a b : ℚ) : mathMax a b = max a b := by
  rw [mathMax, max_def]

/-- Lemma: `mathMin` agrees with the order-theoretic `min`. -/
theorem mathMin_eq (a b : ℚ) : mathMin a b = min a b := by
  rw [mathMin, min_def]

/-- Source: `clamp` — `Math.min(max, Math.max(min, value))`; the
`Number.isFinite` guard always succeeds on rationals. -/
def clamp (value lo hi : ℚ) : ℚ :=
  mathMin hi (mathMax lo value)

/-- Source: `toNormalizedString(value, fallback)`. -/
def toNormalizedString (value : Json) (fallback : String := "") : String :=
  match value with
  | Json.str s => if (jsTrim s).length > 0 then jsTrim s else fallback
  | _ => fallback

/-- Models insertion into a JavaScript `Set`/deduplicating accumulator
(first occurrence kept, insertion order preserved). -/
def dedupKeepFirst (l : List String) : List String :=
  l.foldl (fun acc s => if s ∈ acc then acc else acc ++ [s]) []

/-- Source: `toStringArray(value, fallback)` — keeps trimmed non-empty
strings, deduplicated in first-occurrence order. -/
def toStringArray (value : Json) (fallback : List String := []) : List String :=
  match value with
  | Json.arr es =>
    dedupKeepFirst (es.filterMap fun e =>
      match e with
      | Json.str s => if (jsTrim s).length > 0 then some (jsTrim s) else none
      | _ => none)
  | _ => fallback

/-- Recommendation enumeration (`OverallRecommendation`). -/
inductive OverallRecommendation where
  | StrongHire | Hire | LeanHire | LeanNo | No
deriving DecidableEq, Repr

/-- String rendering of a recommendation (JavaScript string enum value). -/
def OverallRecommendation.toStr : OverallRecommendation → String
  | .StrongHire => "StrongHire"
  | .Hire => "Hire"
  | .LeanHire => "LeanHire"
  | .LeanNo => "LeanNo"
  | .No => "No"

/-- Source: `toOverallRecommendation` — membership in `RECOMMENDATIONS`. -/
def toOverallRecommendation : Json → Option OverallRecommendation
  | Json.str s =>
    if s == "StrongHire" then some .StrongHire
    else if s == "Hire" then some .Hire
    else if s == "LeanHire" then some .LeanHire
    else if s == "LeanNo" then some .LeanNo
    else if s == "No" then some .No
    else none
  | _ => none

/-- Source: `toFiniteNumber` — a finite number is returned as is, a string
goes through `Number(...)` (abstracted by `prims.parseNumber`). -/
def toFiniteNumber (prims : JsStringPrims) : Json → Option ℚ
  | Json.num q => some q
  | Json.str s => prims.parseNumber s
  | _ => none

/-- Source: `toRelevance` — percent-like values in (1, 100] are divided by
100, everything else is clamped into [0, 1]. -/
def toRelevance (prims : JsStringPrims) (value : Json) : Option ℚ :=
  (toFiniteNumber prims value).map fun numeric =>
    if 1 < numeric ∧ numeric ≤ 100 then clamp (numeric / 100) 0 1
    else clamp numeric 0 1

/-- Evidence strength enumeration (`ReportEvidenceStrength`). -/
inductive ReportEvidenceStrength where
  | weak | medium | strong
deriving DecidableEq, Repr

/-- String rendering of a strength value. -/
def ReportEvidenceStrength.toStr : ReportEvidenceStrength → String
  | .weak => "weak"
  | .medium => "medium"
  | .strong => "strong"

/-- Source: `toStrength` — exact match against the three enum strings. -/
def toStrength : Json → Option ReportEvidenceStrength
  | Json.str s =>
    if s == "weak" then some .weak
    else if s == "medium" then some .medium
    else if s == "strong" then some .strong
    else none
  | _ => none

/-- Source: `strengthFromRelevance`. -/
def strengthFromRelevance (relevance : ℚ) : ReportEvidenceStrength :=
  if relevance ≥ 0.75 then .strong
  else if relevance ≥ 0.45 then .medium
  else .weak

/-- Source: `relevanceFromStrength`. -/
def relevanceFromStrength : ReportEvidenceStrength → ℚ
  | .strong => 0.84
  | .medium => 0.62
  | .weak => 0.38

/-- Source: `toMaxWords` — split on whitespace runs, keep at most
`maxWords` words, append an ellipsis when truncating. -/
def toMaxWords (text : String) (maxWords : ℕ) : String :=
  let words := jsWords text
  if words.length ≤ maxWords then joinWith " " words
  else joinWith " " (words.take maxWords) ++ "..."

/-- Source: `recommendationRank` — No < LeanNo < LeanHire < Hire < StrongHire. -/
def recommendationRank : OverallRecommendation → ℕ
  | .No => 0
  | .LeanNo => 1
  | .LeanHire => 2
  | .Hire => 3
  | .StrongHire => 4

/-- Source: `capRecommendation` — keep the value unless its rank exceeds the
allowed maximum. -/
def capRecommendation (value maxAllowed : OverallRecommendation) : OverallRecommendation :=
  if recommendationRank value ≤ recommendationRank maxAllowed then value else maxAllowed

/-- Input transcript segment (`ReportInputSegment`). -/
structure ReportInputSegment where
  id : String
  start : ℚ
  stop : ℚ
  text : String
deriving DecidableEq, Repr

/-- Rubric dimension descriptor (`ReportDimension`). -/
structure ReportDimension where
  key : String
  label : String
  description : String
deriving DecidableEq, Repr

/-- Rubric (`ReportRubric`). -/
structure ReportRubric where
  dimensions : List ReportDimension
deriving DecidableEq, Repr

/-- Report request (`ReportRequestBody`); its fields are trusted/typed. -/
structure ReportRequestBody where
  questionId : String
  questionText : String
  segments : List ReportInputSegment
  rubric : ReportRubric
deriving DecidableEq, Repr

/-- Legacy evidence entry (`ReportEvidence`). -/
structure ReportEvidence where
  segmentId : String
  quote : String
  confidence : ℚ
deriving DecidableEq, Repr

/-- Legacy report item (`ReportItem`). -/
structure ReportItem where
  dimensionKey : String
  score : ℚ
  claim : String
  evidence : List ReportEvidence
deriving DecidableEq, Repr

/-- Legacy report body (`LegacyReportResponseBody`). -/
structure LegacyReportResponseBody where
  summary : String
  items : List ReportItem
deriving DecidableEq, Repr

/-- Per-level anchors (`ReportAnchors`); TypeScript field names are the
digit strings "1" through "5". -/
structure ReportAnchors where
  a1 : String
  a2 : String
  a3 : String
  a4 : String
  a5 : String
deriving DecidableEq, Repr

/-- Normalized evidence entry (`ReportDimensionEvidence`). -/
structure ReportDimensionEvidence where
  segmentId : String
  quote : String
  interpretation : String
  strength : ReportEvidenceStrength
  relevance : ℚ
deriving DecidableEq, Repr

/-- Evidence coverage counters (`ReportEvidenceCoverage`). -/
structure ReportEvidenceCoverage where
  citedSegmentCount : ℚ
  availableSegmentCount : ℚ
deriving DecidableEq, Repr

/-- Anchor alignment block (`ReportAnchorAlignment`). -/
structure ReportAnchorAlignment where
  chosenLevel : ℚ
  whyMeets : List String
  whyNotHigher : List String
deriving DecidableEq, Repr

/-- Score-change block (`ReportWhatWouldChangeScore`). -/
structure ReportWhatWouldChangeScore where
  up : List String
  down : List String
deriving DecidableEq, Repr

/-- Fully normalized dimension assessment (`ReportDimensionAssessment`);
`score` is `number | null` in TypeScript, modelled as `Option ℚ`. -/
structure ReportDimensionAssessment where
  id : String
  label : String
  score : Option ℚ
  notObserved : Bool
  confidence : ℚ
  anchors : ReportAnchors
  missingSignals : List String
  evidence : List ReportDimensionEvidence
  evidenceCoverage : ReportEvidenceCoverage
  observedSignals : List String
  concerns : List String
  counterSignals : List String
  observations : List String
  anchorAlignment : ReportAnchorAlignment
  evidenceQuality : ℚ
  consistency : ℚ
  probes : List String
  whatWouldChangeScore : ReportWhatWouldChangeScore
deriving DecidableEq, Repr

/-- Coverage entry for one dimension (`ReportCoverageByDimensionEntry`). -/
structure ReportCoverageByDimensionEntry where
  segmentIds : List String
  coveragePct : ℚ
deriving DecidableEq, Repr

/-- Coverage entry for one segment (`ReportCoverageBySegmentEntry`). -/
structure ReportCoverageBySegmentEntry where
  dimensions : List String
deriving DecidableEq, Repr

/-- Coverage map (`ReportCoverageMap`): JavaScript string-keyed records are
modelled as association lists with unique keys (first match wins on lookup,
assignment replaces in place). -/
structure ReportCoverageMap where
  byDimension : List (String × ReportCoverageByDimensionEntry)
  bySegment : List (String × ReportCoverageBySegmentEntry)
deriving DecidableEq, Repr

/-- Engineering level enumeration (`ReportLevel`). -/
inductive ReportLevel where
  | intern | newgrad | mid | senior
deriving DecidableEq, Repr

/-- String rendering of a level. -/
def ReportLevel.toStr : ReportLevel → String
  | .intern => "intern"
  | .newgrad => "newgrad"
  | .mid => "mid"
  | .senior => "senior"

/-- Leveling block (`ReportLeveling`). -/
structure ReportLeveling where
  role : String
  level : ReportLevel
deriving DecidableEq, Repr

/-- Fully normalized modern report (`ModernReportResponseBody`). -/
structure ModernReportResponseBody where
  overallSummary : String
  overallRecommendation : OverallRecommendation
  risks : List String
  followUps : List String
  dimensions : List ReportDimensionAssessment
  decisionRationale : List String
  leveling : ReportLeveling
  calibrationNotes : List String
  keyStrengths : List String
  keyRisks : List String
  mustFixToHire : List String
  coverageMap : ReportCoverageMap
deriving DecidableEq, Repr

/-- Source: `NormalizeOptions`. -/
structure NormalizeOptions where
  dimensions : List ReportDimension
  availableSegmentCount : ℚ
  segments : Option (List ReportInputSegment)
deriving Repr

/-- Source: `NormalizeContext`; the `segmentById` map is modelled by the
`lookupSegment` function below (JavaScript `Map` keeps the last duplicate). -/
structure NormalizeContext where
  dimensions : List ReportDimension
  availableSegmentCount : ℚ
  segments : List ReportInputSegment
  segmentIds : List String
  enforceSegmentValidation : Bool
deriving Repr

/-- Models `context.segmentById.get(id)`: the `Map` constructor keeps the
value of the last pair with a duplicated key. -/
def lookupSegment (segments : List ReportInputSegment) (id : String) :
    Option ReportInputSegment :=
  segments.reverse.find? (fun s => s.id == id)

/-- Source: `COVERAGE_EPSILON_SECONDS`. -/
def coverageEpsilonSeconds : ℚ := 0.05

/-- Source: `CORE_DIMENSION_KEYS`. -/
def coreDimensionKeys : List String := ["clarity", "problemSolving", "ownership"]

/-- Models `Number.MAX_SAFE_INTEGER`. -/
def maxSafeInteger : ℚ := 2 ^ 53 - 1

/-- Source: `createDefaultAnchors`. -/
def createDefaultAnchors (label description : String) : ReportAnchors :=
  let base := if (jsTrim label).length > 0 then jsTrim label else "the dimension"
  let detail := if (jsTrim description).length > 0 then jsTrim description else "the competency"
  { a1 := "Signals are largely absent for " ++ base ++
      "; examples stay vague and do not establish " ++ detail ++ "."
    a2 := "Some signals appear for " ++ base ++
      ", but evidence is inconsistent and outcomes are weakly supported."
    a3 := "Adequate " ++ base ++
      " with at least one concrete example; reasoning is understandable but uneven in depth."
    a4 := "Strong " ++ base ++
      " with clear reasoning, concrete tradeoffs, and credible outcomes tied to specific actions."
    a5 := "Exceptional " ++ base ++
      ": consistently precise, high-impact examples with rigorous reasoning and measurable results." }

/-- Source: `normalizeAnchors` — per-level fallback to the default anchors. -/
def normalizeAnchors (value : Json) (fallbackLabel fallbackDescription : String) :
    ReportAnchors :=
  let defaults := createDefaultAnchors fallbackLabel fallbackDescription
  if isRecord value then
    { a1 := toNormalizedString (value.getField "1") defaults.a1
      a2 := toNormalizedString (value.getField "2") defaults.a2
      a3 := toNormalizedString (value.getField "3") defaults.a3
      a4 := toNormalizedString (value.getField "4") defaults.a4
      a5 := toNormalizedString (value.getField "5") defaults.a5 }
  else defaults

/-- Source: `weightForDimension`. -/
def weightForDimension (dimensionKey : String) : ℚ :=
  if dimensionKey == "problemSolving" then 0.35
  else if dimensionKey == "ownership" then 0.25
  else if dimensionKey == "clarity" then 0.2
  else 0.2

/-- Source: `baseRecommendationFromWeightedScore`. -/
def baseRecommendationFromWeightedScore (weightedScore : ℚ) : OverallRecommendation :=
  if weightedScore ≥ 4.5 then .StrongHire
  else if weightedScore ≥ 3.8 then .Hire
  else if weightedScore ≥ 3.2 then .LeanHire
  else if weightedScore ≥ 2.5 then .LeanNo
  else .No

/-- Observedness predicate used by the calibration algorithm:
`!dimension.notObserved && typeof dimension.score === "number"`. -/
def observedDim (d : ReportDimensionAssessment) : Bool :=
  !d.notObserved && d.score.isSome

/-- Weighted score and total weight accumulated over the observed
dimensions (the `reduce` inside `deriveCalibratedRecommendation`). -/
def weightedTotals (dims : List ReportDimensionAssessment) : ℚ × ℚ :=
  dims.foldl
    (fun accumulator dimension =>
      (accumulator.1 + weightForDimension dimension.id * (dimension.score.getD 0),
       accumulator.2 + weightForDimension dimension.id))
    (0, 0)

/-- Mean evidence-coverage ratio across all dimensions (inlined in
`deriveCalibratedRecommendation`). -/
def coverageRatioOf (dims : List ReportDimensionAssessment) : ℚ :=
  if dims.length > 0 then
    ((dims.map fun dimension =>
        if dimension.evidenceCoverage.availableSegmentCount > 0 then
          dimension.evidenceCoverage.citedSegmentCount /
            dimension.evidenceCoverage.availableSegmentCount
        else 0).sum) / (dims.length : ℚ)
  else 0

/-- Core-dimension-not-observed condition (inlined in
`deriveCalibratedRecommendation`). -/
def hasCoreNotObserved (dims : List ReportDimensionAssessment) : Bool :=
  dims.any fun dimension =>
    decide (dimension.id ∈ coreDimensionKeys) &&
      (dimension.notObserved || dimension.score.isNone)

/-- Count of dimensions scored at or below 2 (inlined in
`deriveCalibratedRecommendation`). -/
def lowScoreCount (dims : List ReportDimensionAssessment) : ℕ :=
  (dims.filter fun dimension =>
    match dimension.score with
    | some s => decide (s ≤ 2)
    | none => false).length

/-- Result record of `deriveCalibratedRecommendation`. -/
structure CalibrationResult where
  recommendation : OverallRecommendation
  weightedScore : ℚ
  coverageRat : ℚ
  calibrationNotes : List String
deriving DecidableEq, Repr

/-- Source: `deriveCalibratedRecommendation` — weighted base recommendation
plus three downward caps.  The inline accumulations are factored into
`weightedTotals`, `coverageRatioOf`, `hasCoreNotObserved` and
`lowScoreCount` above. -/
def deriveCalibratedRecommendation (prims : JsStringPrims)
    (dims : List ReportDimensionAssessment) : CalibrationResult :=
  let observedDimensions := dims.filter observedDim
  if observedDimensions.length = 0 then
    { recommendation := .LeanNo
      weightedScore := 0
      coverageRat := 0
      calibrationNotes :=
        ["No scored dimensions were observed; recommendation is capped to LeanNo."] }
  else
    let totals := weightedTotals observedDimensions
    let weightedScore := if totals.2 > 0 then totals.1 / totals.2 else 0
    let ratio := coverageRatioOf dims
    let base := baseRecommendationFromWeightedScore weightedScore
    let notes :=
      ["Weighted score " ++ prims.toFixed2 weightedScore ++
        " derived from dimension importance (problem solving and ownership weighted highest).",
       "Average evidence coverage ratio is " ++ prims.toFixed0 (ratio * 100) ++ "%."]
    let step1 :=
      if hasCoreNotObserved dims then capRecommendation base .LeanHire else base
    let notes1 :=
      if hasCoreNotObserved dims then
        notes ++ ["At least one core dimension is not observed, so recommendation is capped at LeanHire."]
      else notes
    let step2 := if ratio < 0.35 then capRecommendation step1 .LeanHire else step1
    let notes2 :=
      if ratio < 0.35 then
        notes1 ++ ["Evidence coverage is below 35%, so recommendation is capped at LeanHire."]
      else notes1
    let step3 := if lowScoreCount dims ≥ 2 then capRecommendation step2 .LeanNo else step2
    let notes3 :=
      if lowScoreCount dims ≥ 2 then
        notes2 ++ ["Multiple dimensions scored at or below 2, so recommendation is capped at LeanNo."]
      else notes2
    { recommendation := step3
      weightedScore := weightedScore
      coverageRat := ratio
      calibrationNotes := notes3 }

/-- Source: `deriveLeveling`. -/
def deriveLeveling (weightedScore : ℚ) : ReportLeveling :=
  let level : ReportLevel :=
    if weightedScore ≥ 4.2 then .senior
    else if weightedScore ≥ 3.3 then .mid
    else if weightedScore ≥ 2.6 then .newgrad
    else .intern
  { role := "Software Engineer", level := level }

/-- Source: `toReportLevel`. -/
def toReportLevel : Json → Option ReportLevel
  | Json.str s =>
    if s == "intern" then some .intern
    else if s == "newgrad" then some .newgrad
    else if s == "mid" then some .mid
    else if s == "senior" then some .senior
    else none
  | _ => none

/-- Source: `normalizeLeveling`. -/
def normalizeLeveling (value : Json) (fallback : ReportLeveling) : ReportLeveling :=
  if isRecord value then
    { role := toNormalizedString (value.getField "role") fallback.role
      level := (toReportLevel (value.getField "level")).getD fallback.level }
  else fallback

/-- Source: `ensureMinItems` — append non-duplicate fallback strings until
the minimum count is met, then truncate at the maximum. -/
def ensureMinItems (entries fallbackEntries : List String) (minItems maxItems : ℕ) :
    List String :=
  (fallbackEntries.foldl
    (fun result fallbackEntry =>
      if minItems ≤ result.length then result
      else if fallbackEntry ∈ result then result
      else result ++ [fallbackEntry])
    entries).take maxItems

/-- Source: `normalizedContextFromRequest` — clamps segment times into
[0, MAX_SAFE_INTEGER] with end at least start (`toFiniteNumber` on an
already-finite number is the identity). -/
def normalizedContextFromRequest (requestBody : ReportRequestBody) : NormalizeContext :=
  let segments := requestBody.segments.map fun segment =>
    let start := clamp segment.start 0 maxSafeInteger
    let endV := mathMax start (clamp segment.stop start maxSafeInteger)
    { id := segment.id, start := start, stop := endV, text := segment.text }
  { dimensions := requestBody.rubric.dimensions
    availableSegmentCount := (segments.length : ℚ)
    segments := segments
    segmentIds := segments.map (·.id)
    enforceSegmentValidation := true }

/-- Source: `normalizeOptions`. -/
def normalizeOptions (options : NormalizeOptions) : NormalizeContext :=
  let segments := (options.segments.getD []).map fun segment =>
    { id := segment.id
      start := clamp segment.start 0 maxSafeInteger
      stop := mathMax (clamp segment.start 0 maxSafeInteger)
        (clamp segment.stop 0 maxSafeInteger)
      text := segment.text }
  { dimensions := options.dimensions
    availableSegmentCount := mathMax 1 options.availableSegmentCount
    segments := segments
    segmentIds := segments.map (·.id)
    enforceSegmentValidation := segments.length > 0 }

/-- Source: `pickFallbackEvidenceSegments` — walk the segments cyclically
starting at the dimension's index, collecting distinct ids until the target
count is reached.  The offset loop over `(dimensionIndex + offset) % length`
is the left rotation of the segment list by `dimensionIndex`. -/
def pickFallbackEvidenceSegments (context : NormalizeContext)
    (dimensionIndex desiredCount : ℕ) : List ReportInputSegment :=
  if context.segments.length = 0 ∨ desiredCount = 0 then []
  else
    let targetCount := min desiredCount context.segments.length
    (context.segments.rotate dimensionIndex).foldl
      (fun picked segment =>
        if targetCount ≤ picked.length then picked
        else if picked.any (fun s => s.id == segment.id) then picked
        else picked ++ [segment])
      []

/-- Step function for the candidate-evidence loop in `normalizeEvidence`;
the `seenSegmentIds` set always equals the set of segment ids already in
`result`, so it is not tracked separately. -/
def evidenceStep (prims : JsStringPrims) (context : NormalizeContext)
    (notObserved : Bool) (dimensionLabel : String)
    (result : List ReportDimensionEvidence) (entry : Json) :
    List ReportDimensionEvidence :=
  if !isRecord entry then result
  else
    let rawSegmentId := toNormalizedString (entry.getField "segmentId")
    if rawSegmentId.length = 0 ∨ result.any (fun e => e.segmentId == rawSegmentId) then
      result
    else
      let knownSegment := lookupSegment context.segments rawSegmentId
      if context.enforceSegmentValidation ∧ knownSegment.isNone then result
      else
        let rawStrength := toStrength (entry.getField "strength")
        let relevance :=
          ((toRelevance prims (entry.getField "relevance")).orElse fun _ =>
            (toRelevance prims (entry.getField "confidence")).orElse fun _ =>
              rawStrength.map relevanceFromStrength).getD
            (if notObserved then 0.45 else 0.7)
        let strength := rawStrength.getD (strengthFromRelevance relevance)
        let fallbackQuote :=
          toMaxWords ((knownSegment.map (·.text)).getD "Evidence excerpt unavailable.") 25
        let quote := toMaxWords (toNormalizedString (entry.getField "quote") fallbackQuote) 25
        let interpretation :=
          toNormalizedString (entry.getField "interpretation")
            (dimensionLabel ++ " signal from candidate action and stated outcome in this segment.")
        let newEntry : ReportDimensionEvidence :=
          { segmentId := rawSegmentId
            quote := quote
            interpretation := interpretation
            strength := strength
            relevance := relevance }
        result ++ [newEntry]

/-- Synthetic back-filled evidence entry for one picked segment (the object
literal pushed by the fallback loop of `normalizeEvidence`). -/
def syntheticEvidence (dimensionLabel : String) (segment : ReportInputSegment) :
    ReportDimensionEvidence :=
  { segmentId := segment.id
    quote := toMaxWords segment.text 25
    interpretation := dimensionLabel ++ " signal grounded in this quoted segment."
    strength := ReportEvidenceStrength.medium
    relevance := 0.64 }

/-- Source: `normalizeEvidence` — keep valid candidate entries, back-fill
synthetic entries up to `min(2, segments)` for observed dimensions, cap at
four entries. -/
def normalizeEvidence (prims : JsStringPrims) (rawValue : Json)
    (context : NormalizeContext) (dimensionIndex : ℕ) (notObserved : Bool)
    (dimensionLabel : String) : List ReportDimensionEvidence :=
  let candidates := (rawValue.asArray?).getD []
  let result := candidates.foldl (evidenceStep prims context notObserved dimensionLabel) []
  let desiredMinimum := if notObserved then 0 else min 2 context.segments.length
  let result2 :=
    if result.length < desiredMinimum then
      (pickFallbackEvidenceSegments context dimensionIndex
          (desiredMinimum - result.length)).foldl
        (fun res segment =>
          if res.any (fun e => e.segmentId == segment.id) then res
          else res ++ [syntheticEvidence dimensionLabel segment])
        result
    else result
  result2.take 4

/-- Source: `normalizeAnchorAlignment`. -/
def normalizeAnchorAlignment (prims : JsStringPrims) (rawValue : Json)
    (score : Option ℚ) (missingSignals : List String) : ReportAnchorAlignment :=
  let fallbackChosenLevel := score.getD 3
  let fallbackWhyMeets :=
    match score with
    | none => ["Insufficient observable signal to map to a reliable anchor level."]
    | some _ => ["Observed behaviors align with the selected rubric level."]
  let fallbackWhyNotHigher :=
    if missingSignals.length > 0 then missingSignals.take 2
    else ["Additional concrete evidence would be required for a higher level."]
  if isRecord rawValue then
    { chosenLevel :=
        ((round (clamp (((toFiniteNumber prims (rawValue.getField "chosenLevel")).getD
          fallbackChosenLevel)) 1 5) : ℤ) : ℚ)
      whyMeets := ensureMinItems (toStringArray (rawValue.getField "whyMeets"))
        fallbackWhyMeets 1 3
      whyNotHigher := ensureMinItems (toStringArray (rawValue.getField "whyNotHigher"))
        fallbackWhyNotHigher 1 3 }
  else
    { chosenLevel := fallbackChosenLevel
      whyMeets := fallbackWhyMeets
      whyNotHigher := fallbackWhyNotHigher }

/-- Source: `normalizeWhatWouldChangeScore`. -/
def normalizeWhatWouldChangeScore (rawValue : Json) (missingSignals : List String) :
    ReportWhatWouldChangeScore :=
  let fallbackUp :=
    if missingSignals.length > 0 then missingSignals.take 2
    else ["Provide a concrete example with measurable outcome and explicit tradeoffs."]
  let fallbackDown := ["Vague statements without evidence would lower confidence in this score."]
  if isRecord rawValue then
    { up := ensureMinItems (toStringArray (rawValue.getField "up")) fallbackUp 1 3
      down := ensureMinItems (toStringArray (rawValue.getField "down")) fallbackDown 1 3 }
  else
    { up := ensureMinItems [] fallbackUp 1 3
      down := ensureMinItems [] fallbackDown 1 3 }

/-- Source: `normalizeConfidence`. -/
def normalizeConfidence (prims : JsStringPrims) (rawConfidence : Json)
    (evidenceQuality consistency evidenceCoverageRatio : ℚ) : ℚ :=
  match toFiniteNumber prims rawConfidence with
  | some explicitConfidence => ((round (clamp explicitConfidence 0 100) : ℤ) : ℚ)
  | none =>
    let inferred :=
      (evidenceQuality * 0.45 + consistency * 0.35 + evidenceCoverageRatio * 0.2) * 100
    ((round (clamp inferred 0 100) : ℤ) : ℚ)

/-- Source: `normalizeDimension` — total normalization of one candidate
dimension object against its rubric descriptor. -/
def normalizeDimension (prims : JsStringPrims) (rawDimension : Json)
    (descriptor : ReportDimension) (dimensionIndex : ℕ)
    (context : NormalizeContext) : ReportDimensionAssessment :=
  let rawRecord := if isRecord rawDimension then rawDimension else Json.obj []
  let notObserved :=
    match rawRecord.getField "notObserved" with
    | Json.bool b => b
    | _ => false
  let rawScore := toFiniteNumber prims (rawRecord.getField "score")
  let score : Option ℚ :=
    match rawScore with
    | none => none
    | some s => if notObserved then none else some (clamp ((round s : ℤ) : ℚ) 1 5)
  let anchors := normalizeAnchors (rawRecord.getField "anchors")
    descriptor.label descriptor.description
  let missingSignalsFallback :=
    if notObserved then
      ["Add direct evidence for " ++ descriptor.label ++ " via concrete actions and outcomes."]
    else
      ["Show stronger " ++ descriptor.label ++ " evidence tied to measurable outcomes."]
  let missingSignals := ensureMinItems
    (toStringArray (rawRecord.getField "missingSignals")) missingSignalsFallback 1 4
  let evidence := normalizeEvidence prims (rawRecord.getField "evidence") context
    dimensionIndex notObserved descriptor.label
  let citedSegmentCount := ((dedupKeepFirst (evidence.map (·.segmentId))).length : ℚ)
  let evidenceCoverage : ReportEvidenceCoverage :=
    { citedSegmentCount := citedSegmentCount
      availableSegmentCount := context.availableSegmentCount }
  let evidenceCoverageRatio :=
    if context.availableSegmentCount > 0 then
      citedSegmentCount / context.availableSegmentCount
    else 0
  let evidenceQuality := clamp
    ((toRelevance prims (rawRecord.getField "evidenceQuality")).getD
      (if evidence.length > 0 then
        (evidence.map (·.relevance)).sum / (evidence.length : ℚ)
      else if notObserved then 0.25 else 0.5)) 0 1
  let consistency := clamp
    ((toRelevance prims (rawRecord.getField "consistency")).getD
      (if notObserved then 0.35 else 0.62 + mathMin (evidenceCoverageRatio * 0.2) 0.18)) 0 1
  let confidence := normalizeConfidence prims (rawRecord.getField "confidence")
    evidenceQuality consistency evidenceCoverageRatio
  let observationsFallback :=
    if notObserved then
      ["No concrete behavior in the transcript maps directly to " ++ descriptor.label ++ ".",
       "Further probing is required before assigning a reliable score."]
    else
      ["Observed signals suggest " ++ descriptor.label ++ " at approximately level " ++
        prims.numToString (score.getD 3) ++ ".",
       "Evidence contains specific statements but could include more quantification."]
  let observations := ensureMinItems
    (toStringArray (rawRecord.getField "observations")) observationsFallback 2 4
  let observedSignals := ensureMinItems
    (toStringArray (rawRecord.getField "observedSignals")) observations 2 4
  let concernsFallback :=
    if notObserved then ["Cannot validate " ++ descriptor.label ++ " from current response."]
    else missingSignals.take 2
  let concerns := ensureMinItems
    (toStringArray (rawRecord.getField "concerns")) concernsFallback 1 3
  let counterSignals := (toStringArray (rawRecord.getField "counterSignals")).take 3
  let anchorAlignment := normalizeAnchorAlignment prims
    (rawRecord.getField "anchorAlignment") score missingSignals
  let probesFallback :=
    if notObserved then
      ["Describe a situation that demonstrates " ++ descriptor.label ++ " with concrete steps.",
       "What outcome changed because of your direct actions?"]
    else
      ["Which tradeoff did you reject and why?",
       "What metric changed after your intervention?"]
  let probes := ensureMinItems (toStringArray (rawRecord.getField "probes")) probesFallback 2 3
  let whatWouldChangeScore := normalizeWhatWouldChangeScore
    (rawRecord.getField "whatWouldChangeScore") missingSignals
  { id := descriptor.key
    label := descriptor.label
    score := score
    notObserved := notObserved
    confidence := confidence
    anchors := anchors
    missingSignals := missingSignals
    evidence := evidence
    evidenceCoverage := evidenceCoverage
    observedSignals := observedSignals
    concerns := concerns
    counterSignals := counterSignals
    observations := observations
    anchorAlignment := anchorAlignment
    evidenceQuality := evidenceQuality
    consistency := consistency
    probes := probes
    whatWouldChangeScore := whatWouldChangeScore }

/-- Untagged time interval (`{ start: number; end: number }` in report.ts;
`end` is a Lean keyword, rendered as `stop`). -/
structure TimeInterval where
  start : ℚ
  stop : ℚ
deriving DecidableEq, Repr

/-- Relation used to model `[...].sort((a, b) => a.start - b.start)`:
JavaScript's sort is stable, and a stable ascending sort by `start` is
insertion sort with this total preorder. -/
def startLE (a b : TimeInterval) : Prop := a.start ≤ b.start

instance : DecidableRel startLE := fun a b => inferInstanceAs (Decidable (a.start ≤ b.start))

/-- Merging step of the report.ts sweep: extend the running interval's end
(`previous.end = Math.max(previous.end, interval.end)`). -/
def mergeTwoIntervals (cur interval : TimeInterval) : TimeInterval :=
  { start := cur.start, stop := mathMax cur.stop interval.stop }

/-- Sweep phase of `mergeIntervals` in report.ts: `cur` is the running
interval (the mutated `last` element of `merged`). -/
def mergeSweep (epsilonSeconds : ℚ) : TimeInterval → List TimeInterval → List TimeInterval
  | cur, [] => [cur]
  | cur, interval :: rest =>
    if interval.start ≤ cur.stop + epsilonSeconds then
      mergeSweep epsilonSeconds (mergeTwoIntervals cur interval) rest
    else cur :: mergeSweep epsilonSeconds interval rest

/-- Source: `mergeIntervals` (report.ts copy) — sort by start, then a single
left-to-right sweep merging within the tolerance. -/
def mergeIntervals (intervals : List TimeInterval) (epsilonSeconds : ℚ) : List TimeInterval :=
  match List.insertionSort startLE intervals with
  | [] => []
  | first :: rest => mergeSweep epsilonSeconds first rest

/-- Source: `deriveDurationSeconds` (report.ts copy) — maximum segment end
time, or 1 when that maximum is not positive. -/
def deriveDurationSeconds (segments : List ReportInputSegment) : ℚ :=
  let maxEnd := segments.foldl (fun maxValue segment => mathMax maxValue segment.stop) 0
  if maxEnd > 0 then maxEnd else 1

/-- Models JavaScript record-field assignment `m[k] = v`: replace in place
when the key exists, append otherwise. -/
def setAssoc {β : Type} : List (String × β) → String → β → List (String × β)
  | [], k, v => [(k, v)]
  | (k', v') :: rest, k, v =>
    if k' == k then (k, v) :: rest else (k', v') :: setAssoc rest k v

/-- Models JavaScript record-field lookup `m[k]`. -/
def lookupAssoc {β : Type} (m : List (String × β)) (k : String) : Option β :=
  (m.find? (fun p => p.1 == k)).map Prod.snd

/-- The `bySegment` update step shared by both coverage-map builders. -/
def addDimensionForSegment (m : List (String × ReportCoverageBySegmentEntry))
    (segmentId dimensionId : String) : List (String × ReportCoverageBySegmentEntry) :=
  match lookupAssoc m segmentId with
  | some existing =>
    if dimensionId ∈ existing.dimensions then m
    else setAssoc m segmentId { dimensions := existing.dimensions ++ [dimensionId] }
  | none => setAssoc m segmentId { dimensions := [dimensionId] }

/-- Distinct evidence segment ids of a dimension that resolve to a known
segment (the `segmentIds` computation in `createCoverageMap`). -/
def timedSegmentIds (segments : List ReportInputSegment)
    (dimension : ReportDimensionAssessment) : List String :=
  dedupKeepFirst ((dimension.evidence.map (·.segmentId)).filter
    (fun segmentId => (lookupSegment segments segmentId).isSome))

/-- Source: `createCoverageMap` — timed coverage path using the interval
merge utility; the per-dimension loop is a fold over the two indexes. -/
def createCoverageMap (dimensions : List ReportDimensionAssessment)
    (segments : List ReportInputSegment) : ReportCoverageMap :=
  let durationSeconds := deriveDurationSeconds segments
  let result := dimensions.foldl
    (fun acc dimension =>
      let segmentIds := timedSegmentIds segments dimension
      let intervals := segmentIds.filterMap fun segmentId =>
        (lookupSegment segments segmentId).map fun segment =>
          ({ start := clamp segment.start 0 durationSeconds
             stop := clamp (mathMax segment.stop segment.start) 0 durationSeconds } : TimeInterval)
      let mergedIntervals := mergeIntervals intervals coverageEpsilonSeconds
      let coveredSeconds := mergedIntervals.foldl
        (fun sum interval => sum + mathMax (interval.stop - interval.start) 0) 0
      let coveragePct := clamp ((coveredSeconds / durationSeconds) * 100) 0 100
      let entry : ReportCoverageByDimensionEntry :=
        { segmentIds := segmentIds
          coveragePct := ((round (coveragePct * 10) : ℤ) : ℚ) / 10 }
      (setAssoc acc.1 dimension.id entry,
       segmentIds.foldl (fun m segmentId => addDimensionForSegment m segmentId dimension.id)
         acc.2))
    ([], [])
  { byDimension := result.1, bySegment := result.2 }

/-- Source: `createCoverageMapFromEvidence` — count-based coverage path. -/
def createCoverageMapFromEvidence (dimensions : List ReportDimensionAssessment)
    (availableSegmentCount : ℚ) : ReportCoverageMap :=
  let safeAvailableCount := mathMax 1 availableSegmentCount
  let result := dimensions.foldl
    (fun acc dimension =>
      let segmentIds := dedupKeepFirst (dimension.evidence.map (·.segmentId))
      let coveragePct := clamp (((segmentIds.length : ℚ) / safeAvailableCount) * 100) 0 100
      let entry : ReportCoverageByDimensionEntry :=
        { segmentIds := segmentIds
          coveragePct := ((round (coveragePct * 10) : ℤ) : ℚ) / 10 }
      (setAssoc acc.1 dimension.id entry,
       segmentIds.foldl (fun m segmentId => addDimensionForSegment m segmentId dimension.id)
         acc.2))
    ([], [])
  { byDimension := result.1, bySegment := result.2 }

/-- Return record of `buildTopLevelArrays`. -/
structure TopLevelArrays where
  decisionRationale : List String
  keyStrengths : List String
  keyRisks : List String
  mustFixToHire : List String
  risks : List String
  followUps : List String
deriving DecidableEq, Repr

/-- Source: `buildTopLevelArrays`. -/
def buildTopLevelArrays (report : Json) (dims : List ReportDimensionAssessment)
    (recommendation : OverallRecommendation) : TopLevelArrays :=
  let highDimensions := (dims.filter fun dimension =>
    !dimension.notObserved &&
      (match dimension.score with
       | some s => decide (s ≥ 4)
       | none => false)).take 3
  let lowDimensions := (dims.filter fun dimension =>
    dimension.notObserved ||
      (match dimension.score with
       | some s => decide (s ≤ 2)
       | none => false)).take 3
  let fallbackDecisionRationale :=
    ["Recommendation is " ++ recommendation.toStr ++ " based on observed rubric evidence.",
     "Scores emphasize anchor alignment, evidence quality, and cross-segment consistency.",
     "Confidence reflects both breadth of evidence and specificity of cited statements."]
  let fallbackStrengths :=
    (highDimensions.map fun dimension =>
      dimension.label ++ ": aligned with higher rubric anchors.") ++
    ["Candidate communicates decision context and outcomes with interviewer-friendly structure.",
     "Evidence includes at least one concrete, role-owned action sequence.",
     "Response shows some consistency across cited segments."]
  let fallbackRisks :=
    (lowDimensions.map fun dimension =>
      if dimension.notObserved then
        dimension.label ++ ": not observed; targeted probing required."
      else
        dimension.label ++ ": current evidence does not yet support stronger anchor levels.") ++
    ["Evidence coverage may be insufficient for high-confidence leveling.",
     "Some claims are directional and would benefit from stronger quantification."]
  let fallbackFollowUps := ((dims.map (·.probes)).flatten).take 4
  let decisionRationale := ensureMinItems
    (toStringArray (report.getField "decisionRationale")) fallbackDecisionRationale 3 5
  let keyStrengths := ensureMinItems
    (toStringArray (report.getField "keyStrengths")) fallbackStrengths 3 5
  let keyRisks := ensureMinItems
    (toStringArray (report.getField "keyRisks")) fallbackRisks 2 4
  let followUps := ensureMinItems
    (toStringArray (report.getField "followUps")) fallbackFollowUps 1 6
  let risks := ensureMinItems (toStringArray (report.getField "risks")) keyRisks 1 6
  let fallbackMustFix :=
    if recommendation = .StrongHire ∨ recommendation = .Hire then ([] : List String)
    else
      ["Provide at least one concrete example with measurable outcome for the weakest dimension.",
       "Clarify decision tradeoffs and ownership boundaries in follow-up questions."]
  let mustFixToHire := ensureMinItems
    (toStringArray (report.getField "mustFixToHire")) fallbackMustFix
    (if fallbackMustFix.length > 0 then 1 else 0) 4
  { decisionRationale := decisionRationale
    keyStrengths := keyStrengths
    keyRisks := keyRisks
    mustFixToHire := mustFixToHire
    risks := risks
    followUps := followUps }

/-- Indexed map mirroring `array.map((element, index) => ...)`. -/
def mapWithIndexFrom {α β : Type} (f : ℕ → α → β) : ℕ → List α → List β
  | _, [] => []
  | i, a :: as => f i a :: mapWithIndexFrom f (i + 1) as

/-- Indexed map starting at index 0. -/
def mapWithIndex {α β : Type} (f : ℕ → α → β) (l : List α) : List β :=
  mapWithIndexFrom f 0 l

/-- Models `sourceById.get(key)` in `normalizeModernReport`: the map keeps
the first record candidate per non-empty normalized id. -/
def findSourceCandidate (sourceDimensions : List Json) (key : String) : Option Json :=
  sourceDimensions.find? fun candidate =>
    isRecord candidate &&
      (let id := toNormalizedString (candidate.getField "id")
       id.length > 0 && id == key)

/-- Source: `normalizeModernReport` — normalize every rubric dimension,
derive the calibrated recommendation, rebuild the top-level narrative
fields and the coverage map. -/
def normalizeModernReport (prims : JsStringPrims) (sourceReport : Json)
    (context : NormalizeContext) : ModernReportResponseBody :=
  let sourceDimensions := ((sourceReport.getField "dimensions").asArray?).getD []
  let normalizedDimensions := mapWithIndex
    (fun index descriptor =>
      normalizeDimension prims
        ((findSourceCandidate sourceDimensions descriptor.key).getD Json.undef)
        descriptor index context)
    context.dimensions
  let calibration := deriveCalibratedRecommendation prims normalizedDimensions
  let recommendation := calibration.recommendation
  let topLevel := buildTopLevelArrays sourceReport normalizedDimensions recommendation
  let fallbackLeveling := deriveLeveling calibration.weightedScore
  let leveling := normalizeLeveling (sourceReport.getField "leveling") fallbackLeveling
  let calibrationNotes := ensureMinItems
    (toStringArray (sourceReport.getField "calibrationNotes"))
    calibration.calibrationNotes 2 6
  let summary := toNormalizedString (sourceReport.getField "overallSummary")
    "Interview response reviewed with anchor-based scoring and evidence-linked notes."
  let coverageMap :=
    if context.segments.length > 0 then
      createCoverageMap normalizedDimensions context.segments
    else
      createCoverageMapFromEvidence normalizedDimensions context.availableSegmentCount
  { overallSummary := summary
    overallRecommendation := recommendation
    risks := topLevel.risks
    followUps := topLevel.followUps
    dimensions := normalizedDimensions
    decisionRationale := topLevel.decisionRationale
    leveling := leveling
    calibrationNotes := calibrationNotes
    keyStrengths := topLevel.keyStrengths
    keyRisks := topLevel.keyRisks
    mustFixToHire := topLevel.mustFixToHire
    coverageMap := coverageMap }

/-- JSON encoding of a string list. -/
def encodeStringList (l : List String) : Json :=
  Json.arr (l.map Json.str)

/-- JSON encoding of anchors (field names "1" through "5"). -/
def encodeAnchors (a : ReportAnchors) : Json :=
  Json.obj [("1", Json.str a.a1), ("2", Json.str a.a2), ("3", Json.str a.a3),
    ("4", Json.str a.a4), ("5", Json.str a.a5)]

/-- JSON encoding of a normalized evidence entry. -/
def encodeEvidenceEntry (e : ReportDimensionEvidence) : Json :=
  Json.obj [("segmentId", Json.str e.segmentId), ("quote", Json.str e.quote),
    ("interpretation", Json.str e.interpretation),
    ("strength", Json.str e.strength.toStr), ("relevance", Json.num e.relevance)]

/-- JSON encoding of a dimension assessment. -/
def encodeAssessment (d : ReportDimensionAssessment) : Json :=
  Json.obj
    [("id", Json.str d.id),
     ("label", Json.str d.label),
     ("score", match d.score with | some s => Json.num s | none => Json.null),
     ("notObserved", Json.bool d.notObserved),
     ("confidence", Json.num d.confidence),
     ("anchors", encodeAnchors d.anchors),
     ("missingSignals", encodeStringList d.missingSignals),
     ("evidence", Json.arr (d.evidence.map encodeEvidenceEntry)),
     ("evidenceCoverage", Json.obj
       [("citedSegmentCount", Json.num d.evidenceCoverage.citedSegmentCount),
        ("availableSegmentCount", Json.num d.evidenceCoverage.availableSegmentCount)]),
     ("observedSignals", encodeStringList d.observedSignals),
     ("concerns", encodeStringList d.concerns),
     ("counterSignals", encodeStringList d.counterSignals),
     ("observations", encodeStringList d.observations),
     ("anchorAlignment", Json.obj
       [("chosenLevel", Json.num d.anchorAlignment.chosenLevel),
        ("whyMeets", encodeStringList d.anchorAlignment.whyMeets),
        ("whyNotHigher", encodeStringList d.anchorAlignment.whyNotHigher)]),
     ("evidenceQuality", Json.num d.evidenceQuality),
     ("consistency", Json.num d.consistency),
     ("probes", encodeStringList d.probes),
     ("whatWouldChangeScore", Json.obj
       [("up", encodeStringList d.whatWouldChangeScore.up),
        ("down", encodeStringList d.whatWouldChangeScore.down)])]

/-- JSON encoding of a coverage map. -/
def encodeCoverageMap (m : ReportCoverageMap) : Json :=
  Json.obj
    [("byDimension", Json.obj (m.byDimension.map fun p =>
       (p.1, Json.obj [("segmentIds", encodeStringList p.2.segmentIds),
         ("coveragePct", Json.num p.2.coveragePct)]))),
     ("bySegment", Json.obj (m.bySegment.map fun p =>
       (p.1, Json.obj [("dimensions", encodeStringList p.2.dimensions)])))]

/-- JSON value underlying a `ModernReportResponseBody` record: passing the
typed TypeScript object back into `normalizeModernReport` is modelled by
this encoding (the runtime object is its own JSON shape). -/
def encodeModernReport (r : ModernReportResponseBody) : Json :=
  Json.obj
    [("overallSummary", Json.str r.overallSummary),
     ("overallRecommendation", Json.str r.overallRecommendation.toStr),
     ("risks", encodeStringList r.risks),
     ("followUps", encodeStringList r.followUps),
     ("dimensions", Json.arr (r.dimensions.map encodeAssessment)),
     ("decisionRationale", encodeStringList r.decisionRationale),
     ("leveling", Json.obj [("role", Json.str r.leveling.role),
       ("level", Json.str r.leveling.level.toStr)]),
     ("calibrationNotes", encodeStringList r.calibrationNotes),
     ("keyStrengths", encodeStringList r.keyStrengths),
     ("keyRisks", encodeStringList r.keyRisks),
     ("mustFixToHire", encodeStringList r.mustFixToHire),
     ("coverageMap", encodeCoverageMap r.coverageMap)]

/-- Decoder counterpart of the evidence checks inside
`isLegacyReportResponseBody`; succeeds exactly when the guard accepts and
returns the typed value the adapter then reads. -/
def decodeLegacyEvidence (entry : Json) : Option ReportEvidence :=
  if !isRecord entry then none
  else
    match entry.getField "segmentId", entry.getField "quote",
        entry.getField "confidence" with
    | Json.str segmentId, Json.str quote, Json.num confidence =>
      if (jsTrim segmentId).length > 0 then
        some { segmentId := segmentId, quote := quote, confidence := confidence }
      else none
    | _, _, _ => none

/-- Decoder counterpart of the item checks inside
`isLegacyReportResponseBody`. -/
def decodeLegacyItem (item : Json) : Option ReportItem :=
  if !isRecord item then none
  else
    match item.getField "dimensionKey", item.getField "score",
        item.getField "claim", item.getField "evidence" with
    | Json.str dimensionKey, Json.num score, Json.str claim, Json.arr evidence =>
      if (jsTrim dimensionKey).length > 0 then
        (evidence.mapM decodeLegacyEvidence).map fun decoded =>
          { dimensionKey := dimensionKey, score := score, claim := claim,
            evidence := decoded }
      else none
    | _, _, _, _ => none

/-- Source: `isLegacyReportResponseBody`, fused with the typed read that
follows it: the decoder succeeds exactly when the TypeScript guard returns
`true`, and then yields the fields the legacy adapter accesses. -/
def decodeLegacyReport (value : Json) : Option LegacyReportResponseBody :=
  if !isRecord value then none
  else
    match value.getField "summary", value.getField "items" with
    | Json.str summary, Json.arr items =>
      (items.mapM decodeLegacyItem).map fun decoded =>
        { summary := summary, items := decoded }
    | _, _ => none

/-- Source: `isLegacyReportResponseBody` (boolean form). -/
def isLegacyReportResponseBody (value : Json) : Bool :=
  (decodeLegacyReport value).isSome

/-- Models `itemByKey.get(key)` in `fromLegacyReport` (`Map` keeps the last
duplicate). -/
def lookupLegacyItem (items : List ReportItem) (key : String) : Option ReportItem :=
  items.reverse.find? (fun item => item.dimensionKey == key)

/-- Candidate dimension object built by `fromLegacyReport` for one rubric
descriptor. -/
def legacyDimensionJson (prims : JsStringPrims) (context : NormalizeContext)
    (descriptor : ReportDimension) (legacyItem : Option ReportItem) : Json :=
  let anchors := encodeAnchors (createDefaultAnchors descriptor.label descriptor.description)
  match legacyItem with
  | some item =>
    let evidenceEntries := item.evidence.map fun entry =>
      Json.obj
        [("segmentId", Json.str entry.segmentId),
         ("quote", Json.str (toMaxWords entry.quote 25)),
         ("interpretation", Json.str "Legacy evidence mapped from prior report format."),
         ("strength", Json.str "medium"),
         ("relevance", Json.num
           ((toRelevance prims (Json.num entry.confidence)).getD 0.65))]
    let score := clamp ((round item.score : ℤ) : ℚ) 1 5
    Json.obj
      [("id", Json.str descriptor.key),
       ("label", Json.str descriptor.label),
       ("score", Json.num score),
       ("notObserved", Json.bool false),
       ("confidence", Json.num 66),
       ("anchors", anchors),
       ("missingSignals", encodeStringList
         ["Add stronger quantified impact and clearer tradeoff framing."]),
       ("evidence", Json.arr evidenceEntries),
       ("evidenceCoverage", Json.obj
         [("citedSegmentCount", Json.num (evidenceEntries.length : ℚ)),
          ("availableSegmentCount", Json.num context.availableSegmentCount)]),
       ("observedSignals", encodeStringList
         [item.claim, "Legacy score converted to scorecard signals."]),
       ("concerns", encodeStringList
         ["Legacy report lacked explicit concerns; added calibration-safe default."]),
       ("counterSignals", encodeStringList []),
       ("observations", encodeStringList
         [item.claim, "Legacy report migrated into anchor-based rubric format."]),
       ("anchorAlignment", Json.obj
         [("chosenLevel", Json.num score),
          ("whyMeets", encodeStringList [item.claim]),
          ("whyNotHigher", encodeStringList
            ["Need more specific evidence and measurable impact statements."])]),
       ("evidenceQuality", Json.num 0.64),
       ("consistency", Json.num 0.6),
       ("probes", encodeStringList
         ["What specific metric changed because of your approach?",
          "Which stakeholder tradeoff did you explicitly manage?"]),
       ("whatWouldChangeScore", Json.obj
         [("up", encodeStringList ["Add a quantified outcome and a clear decision rationale."]),
          ("down", encodeStringList ["Remove concrete examples or rely on unsupported claims."])])]
  | none =>
    Json.obj
      [("id", Json.str descriptor.key),
       ("label", Json.str descriptor.label),
       ("score", Json.null),
       ("notObserved", Json.bool true),
       ("confidence", Json.num 38),
       ("anchors", anchors),
       ("missingSignals", encodeStringList
         ["No direct signal observed for " ++ descriptor.label ++ "."]),
       ("evidence", Json.arr []),
       ("evidenceCoverage", Json.obj
         [("citedSegmentCount", Json.num 0),
          ("availableSegmentCount", Json.num context.availableSegmentCount)]),
       ("observedSignals", encodeStringList
         ["No signal observed in legacy report for this dimension.",
          "Needs follow-up probing."]),
       ("concerns", encodeStringList
         ["No direct evidence available for " ++ descriptor.label ++ "."]),
       ("counterSignals", encodeStringList []),
       ("observations", encodeStringList
         ["Legacy report had no matching item for this dimension.",
          "Further probing required."]),
       ("anchorAlignment", Json.obj
         [("chosenLevel", Json.num 3),
          ("whyMeets", encodeStringList ["Not enough evidence to assign a level."]),
          ("whyNotHigher", encodeStringList
            ["Need more specific evidence and measurable impact statements."])]),
       ("evidenceQuality", Json.num 0.3),
       ("consistency", Json.num 0.35),
       ("probes", encodeStringList
         ["What specific metric changed because of your approach?",
          "Which stakeholder tradeoff did you explicitly manage?"]),
       ("whatWouldChangeScore", Json.obj
         [("up", encodeStringList ["Add a quantified outcome and a clear decision rationale."]),
          ("down", encodeStringList ["Remove concrete examples or rely on unsupported claims."])])]

/-- Source: `fromLegacyReport` — rewrite the legacy shape into the modern
candidate shape and feed it to the one normalization path. -/
def fromLegacyReport (prims : JsStringPrims) (report : LegacyReportResponseBody)
    (options : NormalizeOptions) : ModernReportResponseBody :=
  let context := normalizeOptions options
  let modernLike := Json.obj
    [("overallSummary", Json.str report.summary),
     ("dimensions", Json.arr (context.dimensions.map fun descriptor =>
       legacyDimensionJson prims context descriptor
         (lookupLegacyItem report.items descriptor.key)))]
  normalizeModernReport prims modernLike context

/-- Source: `getDimensionScoreForMock` — the fixed `[4, 3, 5, 2]` cycle. -/
def getDimensionScoreForMock (index : ℕ) : ℚ :=
  [(4 : ℚ), 3, 5, 2].getD (index % 4) 0

/-- Source: `createMockDimension`. -/
def createMockDimension (descriptor : ReportDimension) (dimensionIndex : ℕ)
    (context : NormalizeContext) (forceNotObserved : Bool) :
    ReportDimensionAssessment :=
  let anchors := createDefaultAnchors descriptor.label descriptor.description
  if forceNotObserved then
    { id := descriptor.key
      label := descriptor.label
      score := none
      notObserved := true
      confidence := 34
      anchors := anchors
      missingSignals :=
        ["No transcript segment clearly demonstrates " ++ descriptor.label ++ ".",
         "Need a concrete example with role, action, and measurable result."]
      evidence := []
      evidenceCoverage :=
        { citedSegmentCount := 0
          availableSegmentCount := context.availableSegmentCount }
      observedSignals :=
        ["No specific statement in transcript demonstrates " ++ descriptor.label ++ ".",
         "Candidate response did not provide enough behavioral detail for this dimension."]
      concerns :=
        ["Core signal for " ++ descriptor.label ++ " is missing.",
         "Recommendation is calibrated downward until this is observed."]
      counterSignals := ["Some adjacent signals appear, but they are too indirect to score."]
      observations :=
        ["Current answer does not provide direct behavioral evidence for " ++
          descriptor.label ++ ".",
         "Interviewer should probe for a specific situation and outcome."]
      anchorAlignment :=
        { chosenLevel := 2
          whyMeets := ["Only partial or indirect signals were present in the response."]
          whyNotHigher := ["No concrete segment linked to this dimension was observed."] }
      evidenceQuality := 0.22
      consistency := 0.31
      probes :=
        ["Can you share one example that directly demonstrates " ++ descriptor.label ++ "?",
         "What did you personally do, and what changed as a result?"]
      whatWouldChangeScore :=
        { up := ["Provide a specific scenario with measurable impact and clear ownership."]
          down := ["Continue with abstract statements without role-specific actions."] } }
  else
    let fallbackSegments := pickFallbackEvidenceSegments context dimensionIndex 2
    let evidence : List ReportDimensionEvidence := mapWithIndex
      (fun evidenceIndex segment =>
        { segmentId := segment.id
          quote := toMaxWords segment.text 25
          interpretation := descriptor.label ++
            " is supported by concrete action and outcome language in this segment."
          strength := if evidenceIndex = 0 then .strong else .medium
          relevance := clamp
            (0.7 - (evidenceIndex : ℚ) * 0.08 + (dimensionIndex : ℚ) * 0.03) 0.45 0.92 })
      fallbackSegments
    let score := getDimensionScoreForMock dimensionIndex
    let citedSegmentCount := ((dedupKeepFirst (evidence.map (·.segmentId))).length : ℚ)
    let coverageRat :=
      if context.availableSegmentCount > 0 then
        citedSegmentCount / context.availableSegmentCount
      else 0
    let evidenceQuality := clamp
      ((evidence.map (·.relevance)).sum / (mathMax 1 (evidence.length : ℚ))) 0 1
    let consistency := clamp (0.56 + (score - 2) * 0.08) 0 1
    let confidence := ((round (clamp
      ((evidenceQuality * 0.45 + consistency * 0.35 + coverageRat * 0.2) * 100) 0 100) : ℤ) : ℚ)
    { id := descriptor.key
      label := descriptor.label
      score := some score
      notObserved := false
      confidence := confidence
      anchors := anchors
      missingSignals :=
        ["Add one more quantified outcome to increase anchor certainty.",
         "Clarify rejected alternatives and why they were deprioritized."]
      evidence := evidence
      evidenceCoverage :=
        { citedSegmentCount := citedSegmentCount
          availableSegmentCount := context.availableSegmentCount }
      observedSignals :=
        ["Provides a concrete example that demonstrates " ++ descriptor.label ++ ".",
         "Describes tradeoffs and outcomes with enough specificity for scoring.",
         "Evidence references candidate-owned actions instead of generic team statements."]
      concerns :=
        ["Could include clearer baseline metrics to strengthen comparability.",
         "Would benefit from one additional example under stronger constraints."]
      counterSignals := ["Some impact claims remain directional rather than fully quantified."]
      observations :=
        [descriptor.label ++ " is demonstrated with specific actions in cited transcript segments.",
         "Reasoning is mostly coherent but could better quantify downstream impact.",
         "Decision framing is credible and tied to candidate-owned execution."]
      anchorAlignment :=
        { chosenLevel := score
          whyMeets :=
            ["Cited evidence aligns with the selected anchor level through concrete behaviors.",
             "Transcript includes explicit context, action, and outcome links."]
          whyNotHigher :=
            ["Evidence breadth is limited; additional scenarios would increase confidence.",
             "Some claims would be stronger with objective metrics."] }
      evidenceQuality := evidenceQuality
      consistency := consistency
      probes :=
        ["What was the hardest tradeoff you made, and how did you validate it?",
         "Which metric or signal best proved your approach worked?",
         "If you repeated this now, what would you change first?"]
      whatWouldChangeScore :=
        { up :=
            ["Show a second independent example with equal rigor and measurable impact.",
             "Quantify stakeholder outcomes and include explicit risk mitigation choices."]
          down :=
            ["Rely on generic claims that are not tied to transcript evidence.",
             "Contradict key details across examples without reconciliation."] } }

/-- Return record of `createMockTopLevel`. -/
structure MockTopLevel where
  overallSummary : String
  overallRecommendation : OverallRecommendation
  leveling : ReportLeveling
  calibrationNotes : List String
  risks : List String
  followUps : List String
  decisionRationale : List String
  keyStrengths : List String
  keyRisks : List String
  mustFixToHire : List String
deriving DecidableEq, Repr

/-- Source: `createMockTopLevel`. -/
def createMockTopLevel (prims : JsStringPrims) (questionText : String)
    (dims : List ReportDimensionAssessment) : MockTopLevel :=
  let calibrated := deriveCalibratedRecommendation prims dims
  let recommendation := calibrated.recommendation
  let leveling := deriveLeveling calibrated.weightedScore
  let strengths := ((dims.filter fun dimension =>
    !dimension.notObserved && decide ((dimension.score.getD 0) ≥ 4)).map fun dimension =>
      dimension.label ++ ": evidence supports higher-anchor behavior.").take 5
  let strengthFallbackPool := strengths ++
    ["Candidate provides concrete behavior tied to at least one measurable outcome.",
     "Evidence includes explicit ownership and decision rationale.",
     "Communication clarity is sufficient for interviewer calibration."]
  let risks := ((dims.filter fun dimension =>
    dimension.notObserved || decide ((dimension.score.getD 5) ≤ 2)).map fun dimension =>
      if dimension.notObserved then
        dimension.label ++ ": not observed in this response; hiring risk remains unvalidated."
      else
        dimension.label ++ ": score is currently below hiring bar due to weak evidence.").take 4
  let riskFallbackPool := risks ++
    ["Coverage is not broad enough to remove all uncertainty for final recommendation.",
     "Some evidence is medium-strength and needs corroboration in follow-up rounds."]
  let followUps := ((dims.map (·.probes)).flatten).take 5
  let mustFixToHire :=
    if recommendation = .StrongHire ∨ recommendation = .Hire then ([] : List String)
    else
      ["Demonstrate the not-observed dimension with one concrete example.",
       "Increase evidence quality by adding measurable outcomes tied to actions."]
  { overallSummary :=
      "Mock hiring-loop summary for \"" ++ questionText ++
        "\": anchored scoring is based on segment-linked evidence and interviewer-style rationale."
    overallRecommendation := recommendation
    leveling := leveling
    calibrationNotes := ensureMinItems calibrated.calibrationNotes
      ["Calibration adjusts recommendation when core signals are missing or evidence coverage is thin.",
       "NotObserved dimensions reduce confidence and cap recommendation."] 2 6
    risks := ensureMinItems risks
      ["No immediate blockers identified from this single response."] 1 6
    followUps := ensureMinItems followUps
      ["What would you do differently in hindsight, and why?"] 1 6
    decisionRationale :=
      ["Recommendation " ++ recommendation.toStr ++
        " is driven by weighted dimension scores and calibration rules.",
       "Confidence weights evidence quality, cross-segment consistency, and citation coverage.",
       "One dimension is intentionally marked not observed to model realistic interviewer uncertainty."]
    keyStrengths := ensureMinItems strengthFallbackPool
      ["Response includes at least one concrete, evidence-backed decision narrative."] 3 5
    keyRisks := ensureMinItems riskFallbackPool
      ["Insufficient behavioral evidence in at least one dimension."] 2 4
    mustFixToHire := mustFixToHire }

/-- Source: `createMockReport` — deterministic mock scorecard: the last
dimension is forced not-observed when the rubric has at least three
dimensions. -/
def createMockReport (prims : JsStringPrims) (requestBody : ReportRequestBody) :
    ModernReportResponseBody :=
  let context := normalizedContextFromRequest requestBody
  let notObservedIndex : ℤ :=
    if context.dimensions.length ≥ 3 then (context.dimensions.length : ℤ) - 1 else -1
  let dimensions := mapWithIndex
    (fun index descriptor =>
      createMockDimension descriptor index context (decide ((index : ℤ) = notObservedIndex)))
    context.dimensions
  let topLevel := createMockTopLevel prims requestBody.questionText dimensions
  let coverageMap := createCoverageMap dimensions context.segments
  { overallSummary := topLevel.overallSummary
    overallRecommendation := topLevel.overallRecommendation
    leveling := topLevel.leveling
    calibrationNotes := topLevel.calibrationNotes
    risks := topLevel.risks
    followUps := topLevel.followUps
    dimensions := dimensions
    decisionRationale := topLevel.decisionRationale
    keyStrengths := topLevel.keyStrengths
    keyRisks := topLevel.keyRisks
    mustFixToHire := topLevel.mustFixToHire
    coverageMap := coverageMap }

/-- Models `Object.values(value)` for a value that passed `isRecord`. -/
def jsObjectValues : Json → List Json
  | Json.obj fs => fs.map Prod.snd
  | Json.arr es => es
  | _ => []

/-- Source: `isModernDimensionAssessment`. -/
def isModernDimensionAssessment (value : Json) : Bool :=
  if !isRecord value then false
  else
    let scoreIsValid :=
      match value.getField "score" with
      | Json.null => true
      | Json.num s => decide (s ≥ 1) && decide (s ≤ 5)
      | _ => false
    let notObservedValid :=
      match value.getField "notObserved" with
      | Json.bool _ => true
      | _ => false
    let confidenceValid :=
      match value.getField "confidence" with
      | Json.num _ => true
      | _ => false
    if !(isNonEmptyString (value.getField "id") &&
         isNonEmptyString (value.getField "label") &&
         scoreIsValid && notObservedValid && confidenceValid &&
         isRecord (value.getField "anchors") &&
         (value.getField "missingSignals").asArray?.isSome &&
         (value.getField "evidence").asArray?.isSome &&
         isRecord (value.getField "evidenceCoverage")) then false
    else
      let anchors := value.getField "anchors"
      let hasAnchors :=
        (anchors.getField "1").asString?.isSome &&
        (anchors.getField "2").asString?.isSome &&
        (anchors.getField "3").asString?.isSome &&
        (anchors.getField "4").asString?.isSome &&
        (anchors.getField "5").asString?.isSome
      if !hasAnchors then false
      else
        let evidenceCoverage := value.getField "evidenceCoverage"
        let coverageValid :=
          (match evidenceCoverage.getField "citedSegmentCount" with
           | Json.num _ => true
           | _ => false) &&
          (match evidenceCoverage.getField "availableSegmentCount" with
           | Json.num _ => true
           | _ => false)
        if !coverageValid then false
        else
          let optionalStringArrays :=
            [value.getField "observedSignals", value.getField "concerns",
             value.getField "counterSignals", value.getField "observations",
             value.getField "probes", value.getField "missingSignals"]
          let optionalStringArraysValid := optionalStringArrays.all fun arrayValue =>
            match arrayValue with
            | Json.undef => true
            | Json.arr entries => entries.all fun entry => entry.asString?.isSome
            | _ => false
          if !optionalStringArraysValid then false
          else
            ((value.getField "evidence").asArray?.getD []).all fun entry =>
              if !isRecord entry then false
              else
                let strengthValid :=
                  match entry.getField "strength" with
                  | Json.undef => true
                  | Json.str s => s == "weak" || s == "medium" || s == "strong"
                  | _ => false
                let relevanceValid :=
                  match entry.getField "relevance" with
                  | Json.undef => true
                  | Json.num _ => true
                  | _ => false
                let interpValid :=
                  match entry.getField "interpretation" with
                  | Json.undef => true
                  | Json.str _ => true
                  | _ => false
                isNonEmptyString (entry.getField "segmentId") &&
                  (entry.getField "quote").asString?.isSome &&
                  strengthValid && relevanceValid && interpValid

/-- Source: `isCoverageMap`. -/
def isCoverageMap (value : Json) : Bool :=
  if !isRecord value then false
  else if !(isRecord (value.getField "byDimension") &&
      isRecord (value.getField "bySegment")) then false
  else
    let byDimensionValues := jsObjectValues (value.getField "byDimension")
    let bySegmentValues := jsObjectValues (value.getField "bySegment")
    let dimensionsValid := byDimensionValues.all fun entry =>
      if !isRecord entry then false
      else
        (match (entry.getField "segmentIds").asArray? with
         | some segmentIds => segmentIds.all fun s => s.asString?.isSome
         | none => false) &&
        (match entry.getField "coveragePct" with
         | Json.num _ => true
         | _ => false)
    if !dimensionsValid then false
    else
      bySegmentValues.all fun entry =>
        if !isRecord entry then false
        else
          match (entry.getField "dimensions").asArray? with
          | some dimensionIds => dimensionIds.all fun s => s.asString?.isSome
          | none => false

/-- Source: `isModernReportResponseBody`. -/
def isModernReportResponseBody (value : Json) : Bool :=
  if !isRecord value then false
  else if !((value.getField "overallSummary").asString?.isSome &&
      (toOverallRecommendation (value.getField "overallRecommendation")).isSome &&
      (value.getField "risks").asArray?.isSome &&
      (value.getField "followUps").asArray?.isSome &&
      (value.getField "dimensions").asArray?.isSome) then false
  else
    let baseArraysValid :=
      ((value.getField "risks").asArray?.getD []).all (fun e => e.asString?.isSome) &&
      ((value.getField "followUps").asArray?.getD []).all (fun e => e.asString?.isSome)
    if !baseArraysValid then false
    else if !(((value.getField "dimensions").asArray?.getD []).all
        isModernDimensionAssessment) then false
    else
      let optionalArrayShape := fun (v : Json) =>
        match v with
        | Json.undef => true
        | Json.arr _ => true
        | _ => false
      if !(optionalArrayShape (value.getField "decisionRationale") &&
          optionalArrayShape (value.getField "calibrationNotes") &&
          optionalArrayShape (value.getField "keyStrengths") &&
          optionalArrayShape (value.getField "keyRisks") &&
          optionalArrayShape (value.getField "mustFixToHire")) then false
      else
        let optionalArraysValid :=
          [value.getField "decisionRationale", value.getField "calibrationNotes",
           value.getField "keyStrengths", value.getField "keyRisks",
           value.getField "mustFixToHire"].all fun arrayValue =>
            match arrayValue with
            | Json.undef => true
            | Json.arr entries => entries.all fun entry => entry.asString?.isSome
            | _ => true
        if !optionalArraysValid then false
        else if !(match value.getField "coverageMap" with
            | Json.undef => true
            | covMap => isCoverageMap covMap) then false
        else
          match value.getField "leveling" with
          | Json.undef => true
          | leveling =>
            isRecord leveling &&
              isNonEmptyString (leveling.getField "role") &&
              (toReportLevel (leveling.getField "level")).isSome

/-- Source: `normalizeFromUnknown` — legacy reshape, modern/object
normalization, or the mock generator for non-object payloads. -/
def normalizeFromUnknown (prims : JsStringPrims) (payload : Json)
    (context : NormalizeContext) : ModernReportResponseBody :=
  match decodeLegacyReport payload with
  | some legacy =>
    fromLegacyReport prims legacy
      { dimensions := context.dimensions
        availableSegmentCount := context.availableSegmentCount
        segments := some context.segments }
  | none =>
    if isModernReportResponseBody payload then
      normalizeModernReport prims payload context
    else if isRecord payload then
      normalizeModernReport prims payload context
    else
      createMockReport prims
        { questionId := "unknown"
          questionText := "Unknown question"
          segments := context.segments
          rubric := { dimensions := context.dimensions } }

/-- Source: `normalizeReportResponse` — normalize the unknown payload, then
re-run the modern normalization on the (encoded) result. -/
def normalizeReportResponse (prims : JsStringPrims) (payload : Json)
    (requestBody : ReportRequestBody) : ModernReportResponseBody :=
  let context := normalizedContextFromRequest requestBody
  let normalized := normalizeFromUnknown prims payload context
  normalizeModernReport prims (encodeModernReport normalized) context

namespace Coverage

/-- Source: `CoverageSegment` (coverage.ts). -/
structure CoverageSegment where
  id : String
  start : ℚ
  stop : ℚ
deriving DecidableEq, Repr

/-- Source: `CoverageInterval` (coverage.ts). -/
structure CoverageInterval where
  start : ℚ
  stop : ℚ
  segmentIds : List String
deriving DecidableEq, Repr

/-- Source: `CoverageModel` (coverage.ts). -/
structure CoverageModel where
  durationSeconds : ℚ
  intervals : List CoverageInterval
  coveragePercent : ℚ
  citedSegmentCount : ℕ
  totalSegmentCount : ℕ
deriving DecidableEq, Repr

/-- Source: `deriveDurationSeconds` (coverage.ts copy) — a finite positive
caller-supplied duration wins, then a positive maximum segment end time,
then the fallback 1. -/
def deriveDurationSeconds (segments : List CoverageSegment)
    (preferredDurationSeconds : Option ℚ) : ℚ :=
  match preferredDurationSeconds with
  | some preferred =>
    if preferred > 0 then preferred
    else
      let maxSegmentEnd := segments.foldl (fun maxValue segment => mathMax maxValue segment.stop) 0
      if maxSegmentEnd > 0 then maxSegmentEnd else 1
  | none =>
    let maxSegmentEnd := segments.foldl (fun maxValue segment => mathMax maxValue segment.stop) 0
    if maxSegmentEnd > 0 then maxSegmentEnd else 1

/-- Sort relation for the coverage copy of the merge (stable ascending sort
by `start`). -/
def startLE (a b : CoverageInterval) : Prop := a.start ≤ b.start

instance : DecidableRel startLE := fun a b => inferInstanceAs (Decidable (a.start ≤ b.start))

/-- Merging step of the coverage.ts sweep: extend the running interval's
end and union the segment-id tags through a JavaScript `Set`
(first-occurrence order). -/
def mergeTwoIntervals (previous interval : CoverageInterval) : CoverageInterval :=
  { start := previous.start
    stop := mathMax previous.stop interval.stop
    segmentIds := dedupKeepFirst (previous.segmentIds ++ interval.segmentIds) }

/-- Sweep phase of `mergeIntervals` in coverage.ts. -/
def mergeSweep (epsilonSeconds : ℚ) : CoverageInterval → List CoverageInterval →
    List CoverageInterval
  | previous, [] => [previous]
  | previous, interval :: rest =>
    if interval.start ≤ previous.stop + epsilonSeconds then
      mergeSweep epsilonSeconds (mergeTwoIntervals previous interval) rest
    else previous :: mergeSweep epsilonSeconds interval rest

/-- Source: `mergeIntervals` (coverage.ts copy). -/
def mergeIntervals (intervals : List CoverageInterval) (epsilonSeconds : ℚ) :
    List CoverageInterval :=
  match List.insertionSort startLE intervals with
  | [] => []
  | first :: rest => mergeSweep epsilonSeconds first rest

/-- Source: `buildCoverageModel` (coverage.ts). -/
def buildCoverageModel (segments : List CoverageSegment)
    (report : ModernReportResponseBody) (activeDimensionId : Option String)
    (durationSecondsIn : Option ℚ) (epsilonSecondsIn : Option ℚ) : CoverageModel :=
  let epsilonSeconds := epsilonSecondsIn.getD 0.05
  let durationSeconds := deriveDurationSeconds segments durationSecondsIn
  let totalSegmentCount := segments.length
  let dimensions : List ReportDimensionAssessment :=
    match activeDimensionId with
    | some active =>
      if active.length > 0 then report.dimensions.filter (fun d => d.id == active)
      else report.dimensions
    | none => report.dimensions
  let citedSegmentIds := dedupKeepFirst
    ((dimensions.map fun (dimension : ReportDimensionAssessment) =>
      (dimension.evidence.map (·.segmentId)).filter fun segmentId =>
        (segments.find? (fun s => s.id == segmentId)).isSome).flatten)
  let rawIntervals := citedSegmentIds.filterMap fun segmentId =>
    ((segments.reverse.find? (fun s => s.id == segmentId)).map fun segment =>
      let start := clamp segment.start 0 durationSeconds
      ({ start := start
         stop := clamp (mathMax segment.stop start) 0 durationSeconds
         segmentIds := [segmentId] } : CoverageInterval))
  let mergedIntervals := mergeIntervals rawIntervals epsilonSeconds
  let coveredSeconds := mergedIntervals.foldl
    (fun sum interval => sum + mathMax (interval.stop - interval.start) 0) 0
  let coveragePercent := clamp ((coveredSeconds / durationSeconds) * 100) 0 100
  { durationSeconds := durationSeconds
    intervals := mergedIntervals
    coveragePercent := coveragePercent
    citedSegmentCount := citedSegmentIds.length
    totalSegmentCount := totalSegmentCount }

end Coverage

/-! ### Generic lemmas about the indexed map and folds -/

theorem mapWithIndexFrom_map {α β γ : Type} (f : ℕ → α → β) (g : β → γ) (h : α → γ)
    (hfg : ∀ i a, g (f i a) = h a) : ∀ (n : ℕ) (l : List α),
    (mapWithIndexFrom f n l).map g = l.map h
  | _, [] => rfl
  | n, a :: as => by
    simp only [mapWithIndexFrom, List.map_cons, hfg,
      mapWithIndexFrom_map f g h hfg (n + 1) as]

theorem mapWithIndexFrom_length {α β : Type} (f : ℕ → α → β) :
    ∀ (n : ℕ) (l : List α), (mapWithIndexFrom f n l).length = l.length
  | _, [] => rfl
  | n, _ :: as => by
    simp only [mapWithIndexFrom, List.length_cons, mapWithIndexFrom_length f (n + 1) as]

theorem mapWithIndexFrom_congr {α β : Type} (f g : ℕ → α → β)
    (h : ∀ i a, f i a = g i a) : ∀ (n : ℕ) (l : List α),
    mapWithIndexFrom f n l = mapWithIndexFrom g n l
  | _, [] => rfl
  | n, a :: as => by
    simp only [mapWithIndexFrom, h, mapWithIndexFrom_congr f g h (n + 1) as]

/-! ### C1 — completeness of normalization -/

/-- The dimension produced by `normalizeDimension` carries the descriptor's
key as its id. -/
theorem normalizeDimension_id (prims : JsStringPrims) (raw : Json)
    (descriptor : ReportDimension) (i : ℕ) (ctx : NormalizeContext) :
    (normalizeDimension prims raw descriptor i ctx).id = descriptor.key := rfl

/-- The dimensions of `normalizeModernReport` are exactly one per context
descriptor, in order, keyed by the descriptor. -/
theorem normalizeModernReport_dimension_ids (prims : JsStringPrims) (src : Json)
    (ctx : NormalizeContext) :
    (normalizeModernReport prims src ctx).dimensions.map (fun d => d.id) =
      ctx.dimensions.map (fun d => d.key) := by
  simp only [normalizeModernReport, mapWithIndex]
  exact mapWithIndexFrom_map _ (fun d : ReportDimensionAssessment => d.id)
    (fun d : ReportDimension => d.key) (fun _ _ => rfl) 0 ctx.dimensions

/-- Claim C1: for every input payload (including null, `{}`, a legacy-shaped
object, or a fully populated modern object) and every non-empty rubric,
`normalizeReportResponse` returns a Scorecard with exactly one dimension
assessment per rubric descriptor, in descriptor order, with id equal to the
descriptor's key (every required field is populated by construction — the
output type is total). -/
theorem claim1_completeness (prims : JsStringPrims) (payload : Json)
    (requestBody : ReportRequestBody)
    (_hrubric : requestBody.rubric.dimensions ≠ []) :
    (normalizeReportResponse prims payload requestBody).dimensions.map (fun d => d.id) =
      requestBody.rubric.dimensions.map (fun d => d.key) ∧
    (normalizeReportResponse prims payload requestBody).dimensions.length =
      requestBody.rubric.dimensions.length := by
  refine ⟨normalizeModernReport_dimension_ids prims _ _, ?_⟩
  have h := congrArg List.length (normalizeModernReport_dimension_ids prims
    (encodeModernReport (normalizeFromUnknown prims payload
      (normalizedContextFromRequest requestBody)))
    (normalizedContextFromRequest requestBody))
  simpa using h

/-- Concrete request used by several witnesses. -/
def wwReq : ReportRequestBody :=
  { questionId := "q1"
    questionText := "t"
    segments := [{ id := "s1", start := 0, stop := 1, text := "hello world" }]
    rubric := { dimensions := [{ key := "clarity", label := "Clarity", description := "d" }] } }

/-- Witness for C1 at a concrete input (`null` payload, one-dimension
rubric). -/
theorem claim1_completeness_witness :
    wwReq.rubric.dimensions ≠ [] ∧
    ((normalizeReportResponse defaultPrims Json.null wwReq).dimensions.map (fun d => d.id) =
      wwReq.rubric.dimensions.map (fun d => d.key) ∧
    (normalizeReportResponse defaultPrims Json.null wwReq).dimensions.length =
      wwReq.rubric.dimensions.length) :=
  ⟨by decide, claim1_completeness defaultPrims Json.null wwReq (by decide)⟩

/-! ### C8 — duration basis for coverage percentages -/

/-- Counterexample to C8 as stated: a transcript whose maximum end time is
one half yields a derived duration of one half, strictly below one second
(the same shape refutes the coverage.ts copy, which returns the positive
maximum end unchanged as well). -/
theorem claim8_counterexample :
    deriveDurationSeconds [{ id := "s1", start := 0, stop := 1/2, text := "x" }] = 1/2 ∧
    Coverage.deriveDurationSeconds [{ id := "s1", start := 0, stop := 1/2 }] none = 1/2 ∧
    ¬(1 ≤ deriveDurationSeconds [{ id := "s1", start := 0, stop := 1/2, text := "x" }]) := by
  refine ⟨?_, ?_, ?_⟩ <;>
    · simp only [deriveDurationSeconds, Coverage.deriveDurationSeconds, mathMax,
        List.foldl]
      norm_num

/-- Claim C8 as amended: the derived duration basis is the maximum segment
end time (or the caller-supplied positive duration) when that is positive —
possibly below one second — and 1 only as a final fallback; in all cases it
is strictly positive, so the coverage percentage division never divides by
zero. -/
theorem claim8_amended_duration_positive :
    (∀ segments : List ReportInputSegment, 0 < deriveDurationSeconds segments) ∧
    (∀ (segments : List Coverage.CoverageSegment) (preferred : Option ℚ),
      0 < Coverage.deriveDurationSeconds segments preferred) := by
  constructor
  · intro segments
    show 0 <
      if (segments.foldl (fun maxValue segment => mathMax maxValue segment.stop) 0) > 0
      then segments.foldl (fun maxValue segment => mathMax maxValue segment.stop) 0
      else 1
    split
    · assumption
    · norm_num
  · intro segments preferred
    match preferred with
    | some p =>
      show 0 <
        if p > 0 then p
        else
          if (segments.foldl (fun maxValue segment => mathMax maxValue segment.stop) 0) > 0
          then segments.foldl (fun maxValue segment => mathMax maxValue segment.stop) 0
          else 1
      split
      · assumption
      · split
        · assumption
        · norm_num
    | none =>
      show 0 <
        if (segments.foldl (fun maxValue segment => mathMax maxValue segment.stop) 0) > 0
        then segments.foldl (fun maxValue segment => mathMax maxValue segment.stop) 0
        else 1
      split
      · assumption
      · norm_num

/-! ### C9 — deterministic mock generator -/

theorem mapWithIndexFrom_map_fused {α β γ : Type} (f : ℕ → α → β) (g : β → γ) :
    ∀ (n : ℕ) (l : List α),
    (mapWithIndexFrom f n l).map g = mapWithIndexFrom (fun i a => g (f i a)) n l
  | _, [] => rfl
  | n, a :: as => by
    simp only [mapWithIndexFrom, List.map_cons, mapWithIndexFrom_map_fused f g (n + 1) as]

/-- Flags of a mock dimension: `forceNotObserved` decides not-observedness,
and observed dimensions take the fixed score cycle at their index. -/
theorem createMockDimension_flags (a : ReportDimension) (i : ℕ)
    (ctx : NormalizeContext) (b : Bool) :
    ((createMockDimension a i ctx b).notObserved, (createMockDimension a i ctx b).score) =
      (if b then ((true : Bool), (none : Option ℚ))
       else (false, some (getDimensionScoreForMock i))) := by
  cases b <;> rfl

/-- Claim C9: `createMockReport` marks exactly the last dimension
not-observed when the rubric has at least 3 dimensions and none otherwise,
and every observed dimension's score is the fixed `[4, 3, 5, 2]` cycle at
the dimension's index. -/
theorem claim9_mock_structure (prims : JsStringPrims) (req : ReportRequestBody) :
    (createMockReport prims req).dimensions.map (fun d => (d.notObserved, d.score)) =
      mapWithIndex
        (fun i _ =>
          if 3 ≤ req.rubric.dimensions.length ∧ i = req.rubric.dimensions.length - 1 then
            ((true : Bool), (none : Option ℚ))
          else (false, some (getDimensionScoreForMock i)))
        req.rubric.dimensions := by
  simp only [createMockReport, mapWithIndex, normalizedContextFromRequest]
  rw [mapWithIndexFrom_map_fused]
  refine mapWithIndexFrom_congr _ _ ?_ 0 _
  intro i a
  rw [createMockDimension_flags]
  have hiff : ((i : ℤ) = (if req.rubric.dimensions.length ≥ 3 then
      ((req.rubric.dimensions.length : ℤ) - 1) else -1)) ↔
      (3 ≤ req.rubric.dimensions.length ∧ i = req.rubric.dimensions.length - 1) := by
    split
    · next h3 =>
      constructor
      · intro h
        exact ⟨h3, by omega⟩
      · rintro ⟨_, hi⟩
        omega
    · next h3 =>
      constructor
      · intro h
        omega
      · rintro ⟨h3', _⟩
        exact absurd h3' h3
  by_cases hcond : (3 ≤ req.rubric.dimensions.length ∧
      i = req.rubric.dimensions.length - 1)
  · simp [hiff.mpr hcond, hcond]
    omega
  · have : ¬((i : ℤ) = (if req.rubric.dimensions.length ≥ 3 then
        ((req.rubric.dimensions.length : ℤ) - 1) else -1)) := fun h => hcond (hiff.mp h)
    simp [this, hcond]

/-! ### C3 — caps only lower the recommendation and compose by minimum -/

/-- `capRecommendation` takes the rank minimum of its arguments. -/
theorem capRecommendation_rank (v m : OverallRecommendation) :
    recommendationRank (capRecommendation v m) =
      min (recommendationRank v) (recommendationRank m) := by
  unfold capRecommendation
  split <;> omega

/-- Unfolding of the calibrated recommendation in the observed case. -/
theorem deriveCalibrated_recommendation_eq (prims : JsStringPrims)
    (dims : List ReportDimensionAssessment)
    (h : (dims.filter observedDim).length ≠ 0) :
    (deriveCalibratedRecommendation prims dims).recommendation =
      (let totals := weightedTotals (dims.filter observedDim)
       let weightedScore := if totals.2 > 0 then totals.1 / totals.2 else 0
       let base := baseRecommendationFromWeightedScore weightedScore
       let step1 := if hasCoreNotObserved dims then capRecommendation base .LeanHire else base
       let step2 :=
         if coverageRatioOf dims < 0.35 then capRecommendation step1 .LeanHire else step1
       if lowScoreCount dims ≥ 2 then capRecommendation step2 .LeanNo else step2) := by
  unfold deriveCalibratedRecommendation
  rw [if_neg h]

/-- Unfolding of the weighted score in the observed case. -/
theorem deriveCalibrated_weightedScore_eq (prims : JsStringPrims)
    (dims : List ReportDimensionAssessment)
    (h : (dims.filter observedDim).length ≠ 0) :
    (deriveCalibratedRecommendation prims dims).weightedScore =
      (if (weightedTotals (dims.filter observedDim)).2 > 0 then
        (weightedTotals (dims.filter observedDim)).1 /
          (weightedTotals (dims.filter observedDim)).2
      else 0) := by
  unfold deriveCalibratedRecommendation
  rw [if_neg h]

/-- Claim C3: a cap is a rank minimum and never increases the value; with at
least one observed dimension, the final recommendation rank equals the
minimum of the base rank and every triggered cap limit (core not observed →
`LeanHire` = 2, coverage ratio below 0.35 → `LeanHire` = 2, at least two
scores ≤ 2 → `LeanNo` = 1), so it is in particular never above the base
recommendation derived from the weighted-average thresholds. -/
theorem claim3_caps_compose (prims : JsStringPrims)
    (dims : List ReportDimensionAssessment)
    (h : (dims.filter observedDim).length ≠ 0) :
    (∀ v m, recommendationRank (capRecommendation v m) =
      min (recommendationRank v) (recommendationRank m)) ∧
    (recommendationRank (deriveCalibratedRecommendation prims dims).recommendation =
      min (min (min
        (recommendationRank (baseRecommendationFromWeightedScore
          (deriveCalibratedRecommendation prims dims).weightedScore))
        (if hasCoreNotObserved dims then 2 else
          recommendationRank (baseRecommendationFromWeightedScore
            (deriveCalibratedRecommendation prims dims).weightedScore)))
        (if coverageRatioOf dims < 0.35 then 2 else
          recommendationRank (baseRecommendationFromWeightedScore
            (deriveCalibratedRecommendation prims dims).weightedScore)))
        (if lowScoreCount dims ≥ 2 then 1 else
          recommendationRank (baseRecommendationFromWeightedScore
            (deriveCalibratedRecommendation prims dims).weightedScore))) ∧
    recommendationRank (deriveCalibratedRecommendation prims dims).recommendation ≤
      recommendationRank (baseRecommendationFromWeightedScore
        (deriveCalibratedRecommendation prims dims).weightedScore) := by
  refine ⟨capRecommendation_rank, ?_, ?_⟩ <;>
    rw [deriveCalibrated_recommendation_eq prims dims h,
      deriveCalibrated_weightedScore_eq prims dims h] <;>
    simp only <;>
    by_cases hcore : hasCoreNotObserved dims = true <;>
    by_cases hcov : coverageRatioOf dims < 0.35 <;>
    by_cases hlow : lowScoreCount dims ≥ 2 <;>
    simp only [hcore, hcov, hlow, if_true, if_false, Bool.false_eq_true,
      capRecommendation_rank] <;>
    simp only [recommendationRank] <;>
    omega

/-- Concrete observed dimension list used by the C3 witness. -/
def w3dims : List ReportDimensionAssessment :=
  [{ id := "clarity", label := "Clarity", score := some 4, notObserved := false,
     confidence := 70,
     anchors := { a1 := "a", a2 := "b", a3 := "c", a4 := "d", a5 := "e" },
     missingSignals := [], evidence := [],
     evidenceCoverage := { citedSegmentCount := 1, availableSegmentCount := 1 },
     observedSignals := [], concerns := [], counterSignals := [], observations := [],
     anchorAlignment := { chosenLevel := 4, whyMeets := [], whyNotHigher := [] },
     evidenceQuality := 0.7, consistency := 0.7, probes := [],
     whatWouldChangeScore := { up := [], down := [] } }]

/-- Witness for C3 at a concrete dimension list with one observed
dimension. -/
theorem claim3_caps_compose_witness :
    (w3dims.filter observedDim).length ≠ 0 ∧
    ((∀ v m, recommendationRank (capRecommendation v m) =
      min (recommendationRank v) (recommendationRank m)) ∧
    (recommendationRank (deriveCalibratedRecommendation defaultPrims w3dims).recommendation =
      min (min (min
        (recommendationRank (baseRecommendationFromWeightedScore
          (deriveCalibratedRecommendation defaultPrims w3dims).weightedScore))
        (if hasCoreNotObserved w3dims then 2 else
          recommendationRank (baseRecommendationFromWeightedScore
            (deriveCalibratedRecommendation defaultPrims w3dims).weightedScore)))
        (if coverageRatioOf w3dims < 0.35 then 2 else
          recommendationRank (baseRecommendationFromWeightedScore
            (deriveCalibratedRecommendation defaultPrims w3dims).weightedScore)))
        (if lowScoreCount w3dims ≥ 2 then 1 else
          recommendationRank (baseRecommendationFromWeightedScore
            (deriveCalibratedRecommendation defaultPrims w3dims).weightedScore))) ∧
    recommendationRank (deriveCalibratedRecommendation defaultPrims w3dims).recommendation ≤
      recommendationRank (baseRecommendationFromWeightedScore
        (deriveCalibratedRecommendation defaultPrims w3dims).weightedScore)) :=
  ⟨by decide, claim3_caps_compose defaultPrims w3dims (by decide)⟩

/-! ### C6 — strength/relevance derivability -/

/-- Membership-preservation principle for list folds that extend an
accumulator. -/
theorem foldl_mem_preserve {α β : Type} (step : List β → α → List β) (P : β → Prop)
    (Q : α → Prop) :
    ∀ (l : List α) (init : List β), (∀ a ∈ l, Q a) → (∀ e ∈ init, P e) →
      (∀ acc a, Q a → (∀ e ∈ acc, P e) → ∀ e ∈ step acc a, P e) →
      ∀ e ∈ l.foldl step init, P e
  | [], _, _, hinit, _ => hinit
  | a :: as, init, hl, hinit, hstep =>
    foldl_mem_preserve step P Q as (step init a)
      (fun x hx => hl x (List.mem_cons_of_mem a hx))
      (hstep init a (hl a (List.mem_cons_self a as)) hinit) hstep

/-- The derived strength of the fixed synthetic relevance 0.64 is medium. -/
theorem strengthFromRelevance_synthetic :
    strengthFromRelevance 0.64 = ReportEvidenceStrength.medium := by
  unfold strengthFromRelevance
  norm_num

/-- During the candidate loop, an entry without a valid explicit strength
produces only evidence whose strength is derived from its relevance. -/
theorem evidenceStep_derivable (prims : JsStringPrims) (ctx : NormalizeContext)
    (notObserved : Bool) (label : String) (acc : List ReportDimensionEvidence)
    (entry : Json) (hq : toStrength (entry.getField "strength") = none)
    (hacc : ∀ e ∈ acc, e.strength = strengthFromRelevance e.relevance) :
    ∀ e ∈ evidenceStep prims ctx notObserved label acc entry,
      e.strength = strengthFromRelevance e.relevance := by
  intro e he
  simp only [evidenceStep, hq, Option.getD_none, Option.map_none] at he
  split at he
  · exact hacc e he
  · split at he
    · exact hacc e he
    · split at he
      · exact hacc e he
      · rcases List.mem_append.mp he with h | h
        · exact hacc e h
        · rw [List.mem_singleton.mp h]

/-- Claim C6 as amended: strength and relevance are mutually derivable for
every evidence entry that does not carry a valid explicit `strength` value
in the candidate input (in particular for all synthetic back-filled
entries); an explicit candidate strength, however, is preserved verbatim
and may contradict the relevance-derived strength (see the
counterexample). -/
theorem claim6_amended_derivable_strength (prims : JsStringPrims) (rawValue : Json)
    (ctx : NormalizeContext) (dimensionIndex : ℕ) (notObserved : Bool) (label : String)
    (hstr : ∀ e ∈ (rawValue.asArray?.getD []), toStrength (e.getField "strength") = none) :
    ∀ entry ∈ normalizeEvidence prims rawValue ctx dimensionIndex notObserved label,
      entry.strength = strengthFromRelevance entry.relevance := by
  intro entry hentry
  unfold normalizeEvidence at hentry
  simp only at hentry
  have hresult : ∀ e ∈ ((rawValue.asArray?).getD []).foldl
      (evidenceStep prims ctx notObserved label) [],
      e.strength = strengthFromRelevance e.relevance := by
    refine foldl_mem_preserve _ _ (fun a => toStrength (a.getField "strength") = none)
      _ [] hstr (by simp) ?_
    intro acc a hQ hacc
    exact evidenceStep_derivable prims ctx notObserved label acc a hQ hacc
  have htake := List.mem_of_mem_take hentry
  rw [show (if notObserved = true then 0 else min 2 ctx.segments.length) =
    (if notObserved = true then 0 else min 2 ctx.segments.length) from rfl] at htake
  generalize (if notObserved = true then 0 else min 2 ctx.segments.length) = dmin at htake
  split at htake
  · refine foldl_mem_preserve _ _ (fun _ => True) _ _ (fun _ _ => trivial) hresult
      ?_ entry htake
    intro acc a _ hacc e he
    split at he
    · exact hacc e he
    · rcases List.mem_append.mp he with h | h
      · exact hacc e h
      · rw [List.mem_singleton.mp h]
        exact strengthFromRelevance_synthetic.symm
  · exact hresult entry htake

/-- Payload whose single evidence entry carries an explicit strength that
contradicts its explicit relevance. -/
def c6Payload : Json :=
  Json.obj [("dimensions", Json.arr [Json.obj
    [("id", Json.str "clarity"), ("score", Json.num 4),
     ("evidence", Json.arr [Json.obj
       [("segmentId", Json.str "s1"), ("strength", Json.str "strong"),
        ("relevance", Json.num (1/10))]])]])]

unseal Rat.add Rat.mul Rat.inv Rat.sub Rat.ofScientific in
/-- Counterexample to C6 as stated: the normalized Scorecard keeps the
explicit strength `strong` together with relevance 0.1, whose derived
strength is `weak`. -/
theorem claim6_counterexample :
    ((normalizeReportResponse defaultPrims c6Payload wwReq).dimensions.map
      (fun d => d.evidence.map (fun e => (e.strength, strengthFromRelevance e.relevance)))) =
      [[(ReportEvidenceStrength.strong, ReportEvidenceStrength.weak)]] ∧
    ReportEvidenceStrength.strong ≠ ReportEvidenceStrength.weak := by
  exact ⟨by decide, by decide⟩

/-- Witness for the amended C6 at a concrete input: candidate entries with
no explicit strength (here: none at all) yield only derivable strengths. -/
theorem claim6_amended_witness :
    (∀ e ∈ ((Json.null.asArray?).getD []), toStrength (e.getField "strength") = none) ∧
    (∀ entry ∈ normalizeEvidence defaultPrims Json.null
        (normalizedContextFromRequest wwReq) 0 false "Clarity",
      entry.strength = strengthFromRelevance entry.relevance) :=
  ⟨by simp [Json.asArray?], claim6_amended_derivable_strength defaultPrims Json.null
    (normalizedContextFromRequest wwReq) 0 false "Clarity" (by simp [Json.asArray?])⟩

/-! ### C7 — synthetic evidence back-fill -/

/-- The picking fold keeps a full accumulator unchanged. -/
theorem pickFold_of_full (target : ℕ) :
    ∀ (l : List ReportInputSegment) (acc : List ReportInputSegment),
    target ≤ acc.length →
    l.foldl
      (fun picked segment =>
        if target ≤ picked.length then picked
        else if picked.any (fun s => s.id == segment.id) then picked
        else picked ++ [segment]) acc = acc
  | [], _, _ => rfl
  | a :: rest, acc, h => by
    simp only [List.foldl_cons, if_pos h]
    exact pickFold_of_full target rest acc h

/-- On id-distinct input the picking fold collects a prefix of the
remaining list. -/
theorem pickFold_take (target : ℕ) :
    ∀ (l : List ReportInputSegment) (acc : List ReportInputSegment),
    ((acc ++ l).map (fun s => s.id)).Nodup →
    l.foldl
      (fun picked segment =>
        if target ≤ picked.length then picked
        else if picked.any (fun s => s.id == segment.id) then picked
        else picked ++ [segment]) acc = acc ++ l.take (target - acc.length)
  | [], acc, _ => by simp
  | a :: rest, acc, hnodup => by
    by_cases hfull : target ≤ acc.length
    · rw [pickFold_of_full target (a :: rest) acc hfull]
      have : target - acc.length = 0 := by omega
      simp [this]
    · have hid : ¬ acc.any (fun s => s.id == a.id) = true := by
        intro hany
        rcases List.any_eq_true.mp hany with ⟨s, hs, heq⟩
        have hmem1 : a.id ∈ (acc.map (fun s => s.id)) := by
          refine List.mem_map.mpr ⟨s, hs, ?_⟩
          exact eq_of_beq heq
        have hsplit := hnodup
        rw [List.map_append, List.nodup_append] at hsplit
        exact hsplit.2.2 hmem1 (by simp)
      simp only [List.foldl_cons, if_neg hfull, if_neg hid]
      have hrec := pickFold_take target rest (acc ++ [a]) (by simpa using hnodup)
      rw [hrec]
      have hsub : target - acc.length = (target - (acc ++ [a]).length) + 1 := by
        simp only [List.length_append, List.length_cons, List.length_nil]
        omega
      rw [hsub]
      simp [List.take_succ_cons]

/-- Characterization of `pickFallbackEvidenceSegments` for id-unique
segments: the first `min(desired, length)` segments in cyclic order from
the dimension's index. -/
theorem pickFallbackEvidenceSegments_eq (ctx : NormalizeContext) (idx desired : ℕ)
    (hnodup : (ctx.segments.map (fun s => s.id)).Nodup)
    (hne : ctx.segments.length ≠ 0) (hdes : desired ≠ 0) :
    pickFallbackEvidenceSegments ctx idx desired =
      (ctx.segments.rotate idx).take (min desired ctx.segments.length) := by
  unfold pickFallbackEvidenceSegments
  rw [if_neg (by tauto)]
  have hperm : ((ctx.segments.rotate idx).map (fun s => s.id)).Nodup := by
    refine ((List.rotate_perm ctx.segments idx).map (fun s => s.id)).nodup_iff.mpr hnodup
  have := pickFold_take (min desired ctx.segments.length) (ctx.segments.rotate idx) []
    (by simpa using hperm)
  simpa using this

/-- The back-fill fold appends one synthetic entry per picked segment when
the picked ids are distinct from each other and from the accumulator. -/
theorem backfillFold_append (label : String) :
    ∀ (l : List ReportInputSegment) (acc : List ReportDimensionEvidence),
    ((acc.map (fun e => e.segmentId)) ++ (l.map (fun s => s.id))).Nodup →
    l.foldl
      (fun res segment =>
        if res.any (fun e => e.segmentId == segment.id) then res
        else res ++ [syntheticEvidence label segment]) acc =
      acc ++ l.map (syntheticEvidence label)
  | [], acc, _ => by simp
  | a :: rest, acc, hnodup => by
    have hid : ¬ acc.any (fun e => e.segmentId == a.id) = true := by
      intro hany
      rcases List.any_eq_true.mp hany with ⟨e, he, heq⟩
      have hmem1 : a.id ∈ (acc.map (fun e => e.segmentId)) := by
        refine List.mem_map.mpr ⟨e, he, ?_⟩
        exact eq_of_beq heq
      have hsplit := hnodup
      rw [List.nodup_append] at hsplit
      exact hsplit.2.2 hmem1 (by simp)
    simp only [List.foldl_cons, if_neg hid]
    have hrec := backfillFold_append label rest (acc ++ [syntheticEvidence label a])
      (by simpa using hnodup)
    rw [hrec]
    simp

/-- Claim C7 as amended: when the candidate value is not an array (so no
valid candidate entries exist) and the dimension is observed, the evidence
list is exactly `min(2, segment count)` synthetic entries picked cyclically
from offset `dimensionIndex` (segment ids assumed unique per the input
contract).  With candidate entries present, the back-fill skips segments
that are already cited, so the total can fall below `min(2, segments)` —
see the counterexample. -/
theorem claim7_amended_backfill (prims : JsStringPrims) (rawValue : Json)
    (ctx : NormalizeContext) (idx : ℕ) (label : String)
    (hnodup : (ctx.segments.map (fun s => s.id)).Nodup)
    (hraw : rawValue.asArray? = none) :
    (normalizeEvidence prims rawValue ctx idx false label).map (fun e => e.segmentId) =
      ((ctx.segments.rotate idx).take (min 2 ctx.segments.length)).map (fun s => s.id) ∧
    (normalizeEvidence prims rawValue ctx idx false label).length =
      min 2 ctx.segments.length := by
  unfold normalizeEvidence
  rw [hraw]
  simp only [Option.getD_none, List.foldl_nil, Bool.false_eq_true, if_false,
    List.length_nil]
  by_cases hlen : ctx.segments.length = 0
  · rw [List.length_eq_zero] at hlen
    rw [hlen]
    simp
  · have hmin : 0 < min 2 ctx.segments.length := by
      have : 0 < ctx.segments.length := Nat.pos_of_ne_zero hlen
      omega
    rw [if_pos (by simpa using hmin)]
    rw [Nat.sub_zero, pickFallbackEvidenceSegments_eq ctx idx (min 2 ctx.segments.length)
      hnodup hlen (by omega)]
    have habsorb : min (min 2 ctx.segments.length) ctx.segments.length =
        min 2 ctx.segments.length := by omega
    rw [habsorb]
    have hperm : ((ctx.segments.rotate idx).map (fun s => s.id)).Nodup :=
      ((List.rotate_perm ctx.segments idx).map (fun s => s.id)).nodup_iff.mpr hnodup
    have htakeNodup :
        ((([] : List ReportDimensionEvidence).map (fun e => e.segmentId)) ++
          (((ctx.segments.rotate idx).take (min 2 ctx.segments.length)).map
            (fun s => s.id))).Nodup := by
      simp only [List.map_nil, List.nil_append]
      rw [List.map_take]
      exact List.Nodup.sublist (List.take_sublist _ _) hperm
    rw [backfillFold_append label _ [] htakeNodup]
    simp only [List.nil_append]
    have hlen2 : (((ctx.segments.rotate idx).take (min 2 ctx.segments.length)).map
        (syntheticEvidence label)).length = min 2 ctx.segments.length := by
      rw [List.length_map, List.length_take, List.length_rotate]
      omega
    rw [List.take_of_length_le (by rw [hlen2]; omega)]
    constructor
    · rw [List.map_map]
      rfl
    · exact hlen2

/-- Three-segment context used by the C7 counterexample and witness. -/
def c7ctx : NormalizeContext := normalizedContextFromRequest
  { questionId := "q", questionText := "t"
    segments := [{ id := "s1", start := 0, stop := 1, text := "a" },
                 { id := "s2", start := 1, stop := 2, text := "b" },
                 { id := "s3", start := 2, stop := 3, text := "c" }]
    rubric := { dimensions := [{ key := "clarity", label := "Clarity", description := "d" }] } }

unseal Rat.add Rat.mul Rat.inv Rat.sub Rat.ofScientific in
/-- Counterexample to C7 as stated: a dimension at index 0 that already
cites segment s1 among three available segments keeps a single evidence
entry — the fallback picker selects s1 again and the dedup check drops it —
which is strictly below `min(2, 3) = 2`. -/
theorem claim7_counterexample :
    ((normalizeDimension defaultPrims
      (Json.obj [("evidence", Json.arr [Json.obj [("segmentId", Json.str "s1")]])])
      { key := "clarity", label := "Clarity", description := "d" } 0 c7ctx).notObserved
        = false) ∧
    c7ctx.segments.length = 3 ∧
    ((normalizeDimension defaultPrims
      (Json.obj [("evidence", Json.arr [Json.obj [("segmentId", Json.str "s1")]])])
      { key := "clarity", label := "Clarity", description := "d" } 0 c7ctx).evidence.map
        (fun e => e.segmentId) = ["s1"]) ∧
    ¬(min 2 c7ctx.segments.length ≤
      (normalizeDimension defaultPrims
        (Json.obj [("evidence", Json.arr [Json.obj [("segmentId", Json.str "s1")]])])
        { key := "clarity", label := "Clarity", description := "d" } 0 c7ctx).evidence.length) := by
  refine ⟨by decide, by decide, by decide, by decide⟩

/-- Witness for the amended C7 at a concrete input: no candidate entries,
three id-unique segments, dimension index 1 → evidence is s2 then s3. -/
theorem claim7_amended_witness :
    (c7ctx.segments.map (fun s => s.id)).Nodup ∧
    (Json.null.asArray? = none) ∧
    ((normalizeEvidence defaultPrims Json.null c7ctx 1 false "Clarity").map
        (fun e => e.segmentId) =
      ((c7ctx.segments.rotate 1).take (min 2 c7ctx.segments.length)).map (fun s => s.id) ∧
    (normalizeEvidence defaultPrims Json.null c7ctx 1 false "Clarity").length =
      min 2 c7ctx.segments.length) :=
  ⟨by decide, rfl,
    claim7_amended_backfill defaultPrims Json.null c7ctx 1 "Clarity" (by decide) rfl⟩

/-! ### C5 — idempotence of the interval merge (both copies)

The two sweep loops (report.ts and coverage.ts) share one generic shape:
an accumulator-merging left-to-right sweep.  The lemmas below are proved
once for the generic shape and instantiated for both copies. -/

section GenericSweep

variable {α : Type} (eps : ℚ) (start stop : α → ℚ) (mergeFn : α → α → α)

/-- Generic sweep loop covering both `mergeSweep` copies. -/
def sweepG : α → List α → List α
  | cur, [] => [cur]
  | cur, i :: rest =>
    if start i ≤ stop cur + eps then sweepG (mergeFn cur i) rest
    else cur :: sweepG i rest

end GenericSweep

/-- The sweep output is non-empty and its head starts where the running
interval starts. -/
theorem sweepG_head {α : Type} (eps : ℚ) (start stop : α → ℚ) (mergeFn : α → α → α)
    (hstart : ∀ a b, start (mergeFn a b) = start a) :
    ∀ (l : List α) (cur : α), ∃ y rest,
    sweepG eps start stop mergeFn cur l = y :: rest ∧ start y = start cur
  | [], cur => ⟨cur, [], rfl, rfl⟩
  | i :: rest, cur => by
    unfold sweepG
    split
    · obtain ⟨y, r, hy, hs⟩ := sweepG_head eps start stop mergeFn hstart rest (mergeFn cur i)
      exact ⟨y, r, hy, by rw [hs, hstart]⟩
    · exact ⟨cur, sweepG eps start stop mergeFn i rest, rfl, rfl⟩

/-- The sweep preserves sortedness by start. -/
theorem sweepG_sorted {α : Type} (eps : ℚ) (start stop : α → ℚ) (mergeFn : α → α → α)
    (hstart : ∀ a b, start (mergeFn a b) = start a) :
    ∀ (l : List α) (cur : α),
    List.Chain' (fun a b => start a ≤ start b) (cur :: l) →
    List.Chain' (fun a b => start a ≤ start b) (sweepG eps start stop mergeFn cur l)
  | [], cur, _ => List.chain'_singleton cur
  | i :: rest, cur, h => by
    have hci : start cur ≤ start i := (List.chain'_cons.mp h).1
    have hrest : List.Chain' (fun a b => start a ≤ start b) (i :: rest) :=
      (List.chain'_cons.mp h).2
    unfold sweepG
    split
    · refine sweepG_sorted eps start stop mergeFn hstart rest (mergeFn cur i) ?_
      cases rest with
      | nil => exact List.chain'_singleton _
      | cons r rs =>
        refine List.chain'_cons.mpr ⟨?_, (List.chain'_cons.mp hrest).2⟩
        rw [hstart]
        exact le_trans hci (List.chain'_cons.mp hrest).1
    · refine List.chain'_cons'.mpr
        ⟨?_, sweepG_sorted eps start stop mergeFn hstart rest i hrest⟩
      intro z hz
      obtain ⟨y, r, hy, hs⟩ := sweepG_head eps start stop mergeFn hstart rest i
      rw [hy] at hz
      simp only [List.head?_cons, Option.mem_def, Option.some.injEq] at hz
      rw [← hz, hs]
      exact hci

/-- The sweep output is separated: no later interval reaches back within
the tolerance of its predecessor. -/
theorem sweepG_sep {α : Type} (eps : ℚ) (start stop : α → ℚ) (mergeFn : α → α → α)
    (hstart : ∀ a b, start (mergeFn a b) = start a) :
    ∀ (l : List α) (cur : α),
    List.Chain' (fun a b => ¬(start b ≤ stop a + eps)) (sweepG eps start stop mergeFn cur l)
  | [], cur => List.chain'_singleton cur
  | i :: rest, cur => by
    unfold sweepG
    split
    · exact sweepG_sep eps start stop mergeFn hstart rest (mergeFn cur i)
    · refine List.chain'_cons'.mpr
        ⟨?_, sweepG_sep eps start stop mergeFn hstart rest i⟩
      intro z hz
      obtain ⟨y, r, hy, hs⟩ := sweepG_head eps start stop mergeFn hstart rest i
      rw [hy] at hz
      simp only [List.head?_cons, Option.mem_def, Option.some.injEq] at hz
      rw [← hz, hs]
      assumption

/-- The sweep leaves a separated list unchanged. -/
theorem sweepG_id {α : Type} (eps : ℚ) (start stop : α → ℚ) (mergeFn : α → α → α) :
    ∀ (l : List α) (cur : α),
    List.Chain' (fun a b => ¬(start b ≤ stop a + eps)) (cur :: l) →
    sweepG eps start stop mergeFn cur l = cur :: l
  | [], _, _ => rfl
  | i :: rest, cur, h => by
    unfold sweepG
    rw [if_neg (List.chain'_cons.mp h).1]
    rw [sweepG_id eps start stop mergeFn rest i (List.chain'_cons.mp h).2]

/-- `mergeSweep` is the generic sweep at the report.ts instantiation. -/
theorem mergeSweep_eq_sweepG (eps : ℚ) : ∀ (l : List TimeInterval) (cur : TimeInterval),
    mergeSweep eps cur l =
      sweepG eps (fun x => x.start) (fun x => x.stop) mergeTwoIntervals cur l
  | [], _ => rfl
  | i :: rest, cur => by
    unfold mergeSweep sweepG
    split
    · exact mergeSweep_eq_sweepG eps rest _
    · rw [mergeSweep_eq_sweepG eps rest i]

/-- `Coverage.mergeSweep` is the generic sweep at the coverage.ts
instantiation. -/
theorem coverageMergeSweep_eq_sweepG (eps : ℚ) :
    ∀ (l : List Coverage.CoverageInterval) (cur : Coverage.CoverageInterval),
    Coverage.mergeSweep eps cur l =
      sweepG eps (fun x => x.start) (fun x => x.stop) Coverage.mergeTwoIntervals cur l
  | [], _ => rfl
  | i :: rest, cur => by
    unfold Coverage.mergeSweep sweepG
    split
    · exact coverageMergeSweep_eq_sweepG eps rest _
    · rw [coverageMergeSweep_eq_sweepG eps rest i]

instance : IsTrans TimeInterval startLE :=
  ⟨fun _ _ _ hab hbc => le_trans hab hbc⟩

instance : IsTrans TimeInterval (fun a b : TimeInterval => a.start ≤ b.start) :=
  ⟨fun _ _ _ hab hbc => le_trans hab hbc⟩

instance :
    IsTrans Coverage.CoverageInterval
      (fun a b : Coverage.CoverageInterval => a.start ≤ b.start) :=
  ⟨fun _ _ _ hab hbc => le_trans hab hbc⟩

instance : IsTotal TimeInterval startLE :=
  ⟨fun a b => le_total a.start b.start⟩

instance : IsTrans Coverage.CoverageInterval Coverage.startLE :=
  ⟨fun _ _ _ hab hbc => le_trans hab hbc⟩

instance : IsTotal Coverage.CoverageInterval Coverage.startLE :=
  ⟨fun a b => le_total a.start b.start⟩

/-- Claim C5: merging an already-merged interval list yields the same list,
for any tolerance and for both copies of the algorithm. -/
theorem claim5_merge_idempotent :
    (∀ (intervals : List TimeInterval) (epsilonSeconds : ℚ),
      mergeIntervals (mergeIntervals intervals epsilonSeconds) epsilonSeconds =
        mergeIntervals intervals epsilonSeconds) ∧
    (∀ (intervals : List Coverage.CoverageInterval) (epsilonSeconds : ℚ),
      Coverage.mergeIntervals (Coverage.mergeIntervals intervals epsilonSeconds)
          epsilonSeconds =
        Coverage.mergeIntervals intervals epsilonSeconds) := by
  constructor
  · intro l eps
    unfold mergeIntervals
    cases hs : List.insertionSort startLE l with
    | nil => rfl
    | cons x xs =>
      dsimp only
      rw [mergeSweep_eq_sweepG]
      have hstart : ∀ (a b : TimeInterval),
          (fun x : TimeInterval => x.start) (mergeTwoIntervals a b) =
            (fun x : TimeInterval => x.start) a := fun _ _ => rfl
      have hsorted_in :
          List.Chain' (fun a b : TimeInterval => a.start ≤ b.start) (x :: xs) := by
        have hp := List.sorted_insertionSort startLE l
        rw [hs] at hp
        exact List.chain'_iff_pairwise.mpr hp
      have hsorted_out := sweepG_sorted eps (fun x : TimeInterval => x.start)
        (fun x : TimeInterval => x.stop) mergeTwoIntervals hstart xs x hsorted_in
      have hsep := sweepG_sep eps (fun x : TimeInterval => x.start)
        (fun x : TimeInterval => x.stop) mergeTwoIntervals hstart xs x
      have hsorted_out2 : List.Chain' startLE
          (sweepG eps (fun x : TimeInterval => x.start) (fun x : TimeInterval => x.stop)
            mergeTwoIntervals x xs) := hsorted_out
      have hresort : List.insertionSort startLE
          (sweepG eps (fun x : TimeInterval => x.start) (fun x : TimeInterval => x.stop)
            mergeTwoIntervals x xs) =
          sweepG eps (fun x : TimeInterval => x.start) (fun x : TimeInterval => x.stop)
            mergeTwoIntervals x xs :=
        List.Sorted.insertionSort_eq (List.chain'_iff_pairwise.mp hsorted_out2)
      obtain ⟨y, r, hy, _⟩ := sweepG_head eps (fun x : TimeInterval => x.start)
        (fun x : TimeInterval => x.stop) mergeTwoIntervals hstart xs x
      rw [hresort, hy]
      dsimp only
      rw [mergeSweep_eq_sweepG]
      rw [sweepG_id eps (fun x : TimeInterval => x.start)
        (fun x : TimeInterval => x.stop) mergeTwoIntervals r y (by rw [← hy]; exact hsep)]
  · intro l eps
    unfold Coverage.mergeIntervals
    cases hs : List.insertionSort Coverage.startLE l with
    | nil => rfl
    | cons x xs =>
      dsimp only
      rw [coverageMergeSweep_eq_sweepG]
      have hstart : ∀ (a b : Coverage.CoverageInterval),
          (fun x : Coverage.CoverageInterval => x.start)
              (Coverage.mergeTwoIntervals a b) =
            (fun x : Coverage.CoverageInterval => x.start) a := fun _ _ => rfl
      have hsorted_in : List.Chain'
          (fun a b : Coverage.CoverageInterval => a.start ≤ b.start) (x :: xs) := by
        have hp := List.sorted_insertionSort Coverage.startLE l
        rw [hs] at hp
        exact List.chain'_iff_pairwise.mpr hp
      have hsorted_out := sweepG_sorted eps
        (fun x : Coverage.CoverageInterval => x.start)
        (fun x : Coverage.CoverageInterval => x.stop)
        Coverage.mergeTwoIntervals hstart xs x hsorted_in
      have hsep := sweepG_sep eps (fun x : Coverage.CoverageInterval => x.start)
        (fun x : Coverage.CoverageInterval => x.stop)
        Coverage.mergeTwoIntervals hstart xs x
      have hsorted_out2 : List.Chain' Coverage.startLE
          (sweepG eps (fun x : Coverage.CoverageInterval => x.start)
            (fun x : Coverage.CoverageInterval => x.stop)
            Coverage.mergeTwoIntervals x xs) := hsorted_out
      have hresort : List.insertionSort Coverage.startLE
          (sweepG eps (fun x : Coverage.CoverageInterval => x.start)
            (fun x : Coverage.CoverageInterval => x.stop)
            Coverage.mergeTwoIntervals x xs) =
          sweepG eps (fun x : Coverage.CoverageInterval => x.start)
            (fun x : Coverage.CoverageInterval => x.stop)
            Coverage.mergeTwoIntervals x xs :=
        List.Sorted.insertionSort_eq (List.chain'_iff_pairwise.mp hsorted_out2)
      obtain ⟨y, r, hy, _⟩ := sweepG_head eps
        (fun x : Coverage.CoverageInterval => x.start)
        (fun x : Coverage.CoverageInterval => x.stop)
        Coverage.mergeTwoIntervals hstart xs x
      rw [hresort, hy]
      dsimp only
      rw [coverageMergeSweep_eq_sweepG]
      rw [sweepG_id eps (fun x : Coverage.CoverageInterval => x.start)
        (fun x : Coverage.CoverageInterval => x.stop)
        Coverage.mergeTwoIntervals r y (by rw [← hy]; exact hsep)]

/-! ### C2 — monotonicity of the calibrated recommendation -/

/-- Weakening relation on assessments: identical except for a possibly
decreased (still present) score. -/
def ScoreWeakened (d d' : ReportDimensionAssessment) : Prop :=
  d'.id = d.id ∧ d'.notObserved = d.notObserved ∧
    d'.evidenceCoverage = d.evidenceCoverage ∧
    (d'.score = d.score ∨
      (d.notObserved = false ∧ ∃ s s', d.score = some s ∧ d'.score = some s' ∧ s' ≤ s))

theorem ScoreWeakened.refl (d : ReportDimensionAssessment) : ScoreWeakened d d :=
  ⟨rfl, rfl, rfl, Or.inl rfl⟩

theorem ScoreWeakened.observedDim_eq {d d' : ReportDimensionAssessment}
    (h : ScoreWeakened d d') : observedDim d' = observedDim d := by
  obtain ⟨_, hno, _, hsc⟩ := h
  unfold observedDim
  rw [hno]
  rcases hsc with h | ⟨_, s, s', hs, hs', _⟩
  · rw [h]
  · rw [hs, hs']
    rfl

theorem ScoreWeakened.weight_eq {d d' : ReportDimensionAssessment}
    (h : ScoreWeakened d d') :
    weightForDimension d'.id = weightForDimension d.id := by
  rw [h.1]

theorem ScoreWeakened.wscore_le {d d' : ReportDimensionAssessment}
    (h : ScoreWeakened d d') :
    weightForDimension d'.id * (d'.score.getD 0) ≤
      weightForDimension d.id * (d.score.getD 0) := by
  rw [h.weight_eq]
  rcases h.2.2.2 with hsc | ⟨_, s, s', hs, hs', hle⟩
  · rw [hsc]
  · rw [hs, hs']
    simp only [Option.getD_some]
    have hw : 0 ≤ weightForDimension d.id := by
      unfold weightForDimension
      split
      · norm_num
      · split
        · norm_num
        · split <;> norm_num
    exact mul_le_mul_of_nonneg_left hle hw

theorem ScoreWeakened.ratio_eq {d d' : ReportDimensionAssessment}
    (h : ScoreWeakened d d') :
    (if d'.evidenceCoverage.availableSegmentCount > 0 then
      d'.evidenceCoverage.citedSegmentCount / d'.evidenceCoverage.availableSegmentCount
    else 0) =
    (if d.evidenceCoverage.availableSegmentCount > 0 then
      d.evidenceCoverage.citedSegmentCount / d.evidenceCoverage.availableSegmentCount
    else 0) := by
  rw [h.2.2.1]

theorem ScoreWeakened.core_eq {d d' : ReportDimensionAssessment}
    (h : ScoreWeakened d d') :
    (decide (d'.id ∈ coreDimensionKeys) && (d'.notObserved || d'.score.isNone)) =
      (decide (d.id ∈ coreDimensionKeys) && (d.notObserved || d.score.isNone)) := by
  obtain ⟨hid, hno, _, hsc⟩ := h
  rw [hid, hno]
  rcases hsc with h | ⟨_, s, s', hs, hs', _⟩
  · rw [h]
  · rw [hs, hs']
    rfl

theorem ScoreWeakened.low_mono {d d' : ReportDimensionAssessment}
    (h : ScoreWeakened d d') :
    (match d.score with
     | some s => decide (s ≤ 2)
     | none => false) = true →
    (match d'.score with
     | some s => decide (s ≤ 2)
     | none => false) = true := by
  intro hd
  rcases h.2.2.2 with hsc | ⟨_, s, s', hs, hs', hle⟩
  · rw [hsc]
    exact hd
  · rw [hs] at hd
    rw [hs']
    simp only [decide_eq_true_eq] at hd ⊢
    linarith

/-- `Forall₂` respects boolean filters whose predicate the relation
preserves. -/
theorem forall₂_filter_of_eq {α : Type} {R : α → α → Prop} (p : α → Bool)
    (hp : ∀ a b, R a b → p b = p a) :
    ∀ {l l' : List α}, List.Forall₂ R l l' →
      List.Forall₂ R (l.filter p) (l'.filter p)
  | _, _, List.Forall₂.nil => List.Forall₂.nil
  | _, _, List.Forall₂.cons hab ht => by
    rename_i a b t t'
    by_cases hpa : p a = true
    · rw [List.filter_cons_of_pos hpa, List.filter_cons_of_pos (by rw [hp a b hab]; exact hpa)]
      exact List.Forall₂.cons hab (forall₂_filter_of_eq p hp ht)
    · rw [List.filter_cons_of_neg hpa,
        List.filter_cons_of_neg (by rw [hp a b hab]; exact hpa)]
      exact forall₂_filter_of_eq p hp ht

/-- Mapped sums agree over `Forall₂`-related lists when the relation
preserves the mapped value. -/
theorem forall₂_sum_eq {α : Type} {R : α → α → Prop} (f : α → ℚ)
    (hf : ∀ a b, R a b → f b = f a) :
    ∀ {l l' : List α}, List.Forall₂ R l l' → (l'.map f).sum = (l.map f).sum
  | _, _, List.Forall₂.nil => rfl
  | _, _, List.Forall₂.cons hab ht => by
    rename_i a b t t'
    simp only [List.map_cons, List.sum_cons, hf a b hab, forall₂_sum_eq f hf ht]

/-- Mapped sums decrease over `Forall₂`-related lists when the relation
bounds the mapped value. -/
theorem forall₂_sum_le {α : Type} {R : α → α → Prop} (f : α → ℚ)
    (hf : ∀ a b, R a b → f b ≤ f a) :
    ∀ {l l' : List α}, List.Forall₂ R l l' → (l'.map f).sum ≤ (l.map f).sum
  | _, _, List.Forall₂.nil => le_refl _
  | _, _, List.Forall₂.cons hab ht => by
    rename_i a b t t'
    simp only [List.map_cons, List.sum_cons]
    exact add_le_add (hf a b hab) (forall₂_sum_le f hf ht)

/-- `any` agrees over `Forall₂`-related lists when the relation preserves
the predicate. -/
theorem forall₂_any_eq {α : Type} {R : α → α → Prop} (q : α → Bool)
    (hq : ∀ a b, R a b → q b = q a) :
    ∀ {l l' : List α}, List.Forall₂ R l l' → l'.any q = l.any q
  | _, _, List.Forall₂.nil => rfl
  | _, _, List.Forall₂.cons hab ht => by
    rename_i a b t t'
    simp only [List.any_cons, hq a b hab, forall₂_any_eq q hq ht]

/-- Filter lengths grow over `Forall₂`-related lists when the relation only
turns the predicate on. -/
theorem forall₂_filter_length_le {α : Type} {R : α → α → Prop} (q : α → Bool)
    (hq : ∀ a b, R a b → q a = true → q b = true) :
    ∀ {l l' : List α}, List.Forall₂ R l l' →
      (l.filter q).length ≤ (l'.filter q).length
  | _, _, List.Forall₂.nil => le_refl _
  | _, _, List.Forall₂.cons hab ht => by
    rename_i a b t t'
    by_cases hqa : q a = true
    · rw [List.filter_cons_of_pos hqa, List.filter_cons_of_pos (hq a b hab hqa)]
      simpa using forall₂_filter_length_le q hq ht
    · rw [List.filter_cons_of_neg hqa]
      refine le_trans (forall₂_filter_length_le q hq ht) ?_
      cases hqb : q b
      · rw [List.filter_cons_of_neg (by simp [hqb])]
      · rw [List.filter_cons_of_pos hqb]
        simp

/-- Reflexivity of `Forall₂` for a reflexive relation. -/
theorem forall₂_refl_of {α : Type} {R : α → α → Prop} (hrefl : ∀ a, R a a) :
    ∀ l : List α, List.Forall₂ R l l
  | [] => List.Forall₂.nil
  | a :: t => List.Forall₂.cons (hrefl a) (forall₂_refl_of hrefl t)

/-- Replacing one list element by a related one gives `Forall₂`-related
lists. -/
theorem forall₂_set_of_rel {α : Type} {R : α → α → Prop} (hrefl : ∀ a, R a a) :
    ∀ (l : List α) (i : ℕ) (d d' : α), l.get? i = some d → R d d' →
      List.Forall₂ R l (l.set i d')
  | [], i, d, d', hget, _ => by simp at hget
  | a :: t, 0, d, d', hget, hR => by
    simp only [List.get?_cons_zero, Option.some.injEq] at hget
    rw [List.set_cons_zero]
    exact List.Forall₂.cons (hget ▸ hR) (forall₂_refl_of hrefl t)
  | a :: t, i + 1, d, d', hget, hR => by
    rw [List.set_cons_succ]
    exact List.Forall₂.cons (hrefl a)
      (forall₂_set_of_rel hrefl t i d d' (by simpa using hget) hR)

/-- The fold inside `weightedTotals` is the pair of mapped sums. -/
theorem weightedTotals_eq_sums (dims : List ReportDimensionAssessment) :
    weightedTotals dims =
      ((dims.map (fun d => weightForDimension d.id * (d.score.getD 0))).sum,
       (dims.map (fun d => weightForDimension d.id)).sum) := by
  unfold weightedTotals
  suffices h : ∀ (l : List ReportDimensionAssessment) (a b : ℚ),
      l.foldl (fun acc d =>
        (acc.1 + weightForDimension d.id * (d.score.getD 0),
         acc.2 + weightForDimension d.id)) (a, b) =
      (a + (l.map (fun d => weightForDimension d.id * (d.score.getD 0))).sum,
       b + (l.map (fun d => weightForDimension d.id)).sum) by
    rw [h dims 0 0]
    simp
  intro l
  induction l with
  | nil => simp
  | cons d t ih =>
    intro a b
    simp only [List.foldl_cons, ih, List.map_cons, List.sum_cons]
    rw [Prod.mk.injEq]
    constructor <;> ring

/-- Every dimension weight is positive. -/
theorem weightForDimension_pos (key : String) : 0 < weightForDimension key := by
  unfold weightForDimension
  split
  · norm_num
  · split
    · norm_num
    · split <;> norm_num

/-- The total weight over a non-empty dimension list is positive. -/
theorem weight_sum_pos :
    ∀ (l : List ReportDimensionAssessment), l ≠ [] →
    0 < (l.map (fun d => weightForDimension d.id)).sum
  | [], h => absurd rfl h
  | d :: t, _ => by
    simp only [List.map_cons, List.sum_cons]
    have h1 := weightForDimension_pos d.id
    have h2 : 0 ≤ (t.map (fun d => weightForDimension d.id)).sum :=
      List.sum_nonneg (by
        intro x hx
        rcases List.mem_map.mp hx with ⟨e, _, he⟩
        rw [← he]
        exact le_of_lt (weightForDimension_pos e.id))
    linarith

/-- The base recommendation's rank is monotone in the weighted score. -/
theorem baseRecommendation_rank_mono {x y : ℚ} (h : x ≤ y) :
    recommendationRank (baseRecommendationFromWeightedScore x) ≤
      recommendationRank (baseRecommendationFromWeightedScore y) := by
  unfold baseRecommendationFromWeightedScore
  split_ifs <;> simp only [recommendationRank] <;> first | omega | (exfalso; linarith)

/-- Monotonicity of one conditional cap step. -/
theorem condCap_rank_mono {c c' : Prop} [Decidable c] [Decidable c']
    (hc : c → c') (m v v' : OverallRecommendation)
    (hv : recommendationRank v' ≤ recommendationRank v) :
    recommendationRank (if c' then capRecommendation v' m else v') ≤
      recommendationRank (if c then capRecommendation v m else v) := by
  by_cases h1 : c'
  · rw [if_pos h1]
    by_cases h2 : c
    · rw [if_pos h2]
      simp only [capRecommendation_rank]
      omega
    · rw [if_neg h2]
      simp only [capRecommendation_rank]
      omega
  · rw [if_neg h1]
    by_cases h2 : c
    · exact absurd (hc h2) h1
    · rw [if_neg h2]
      exact hv

/-- Core monotonicity: pointwise score weakening never raises the
calibrated recommendation's rank. -/
theorem deriveCalibrated_rank_mono (prims : JsStringPrims)
    {dims dims' : List ReportDimensionAssessment}
    (h : List.Forall₂ ScoreWeakened dims dims') :
    recommendationRank (deriveCalibratedRecommendation prims dims').recommendation ≤
      recommendationRank (deriveCalibratedRecommendation prims dims).recommendation := by
  have hfilter : List.Forall₂ ScoreWeakened (dims.filter observedDim)
      (dims'.filter observedDim) :=
    forall₂_filter_of_eq observedDim (fun a b hab => hab.observedDim_eq) h
  have hlen := hfilter.length_eq
  by_cases hobs : (dims.filter observedDim).length = 0
  · have hobs' : (dims'.filter observedDim).length = 0 := by omega
    unfold deriveCalibratedRecommendation
    rw [if_pos hobs, if_pos hobs']
  · have hobs' : (dims'.filter observedDim).length ≠ 0 := by omega
    have hne : dims.filter observedDim ≠ [] := by
      intro hnil
      rw [hnil] at hobs
      exact hobs rfl
    -- equal condition values for the two coverage caps
    have hcore : hasCoreNotObserved dims' = hasCoreNotObserved dims :=
      forall₂_any_eq _ (fun a b hab => hab.core_eq) h
    have hcov : coverageRatioOf dims' = coverageRatioOf dims := by
      unfold coverageRatioOf
      rw [h.length_eq]
      rw [forall₂_sum_eq _ (fun a b hab => hab.ratio_eq) h]
    have hlow : lowScoreCount dims ≥ 2 → lowScoreCount dims' ≥ 2 := by
      intro h2
      have := forall₂_filter_length_le _ (fun a b hab => hab.low_mono) h
      unfold lowScoreCount at h2 ⊢
      omega
    -- weighted score comparison
    have hden : (weightedTotals (dims'.filter observedDim)).2 =
        (weightedTotals (dims.filter observedDim)).2 := by
      rw [weightedTotals_eq_sums, weightedTotals_eq_sums]
      exact forall₂_sum_eq _ (fun a b hab => congrArg weightForDimension hab.1) hfilter
    have hnum : (weightedTotals (dims'.filter observedDim)).1 ≤
        (weightedTotals (dims.filter observedDim)).1 := by
      rw [weightedTotals_eq_sums, weightedTotals_eq_sums]
      exact forall₂_sum_le _ (fun a b hab => hab.wscore_le) hfilter
    have hdenpos : 0 < (weightedTotals (dims.filter observedDim)).2 := by
      rw [weightedTotals_eq_sums]
      exact weight_sum_pos _ hne
    have hws :
        (if (weightedTotals (dims'.filter observedDim)).2 > 0 then
          (weightedTotals (dims'.filter observedDim)).1 /
            (weightedTotals (dims'.filter observedDim)).2
        else 0) ≤
        (if (weightedTotals (dims.filter observedDim)).2 > 0 then
          (weightedTotals (dims.filter observedDim)).1 /
            (weightedTotals (dims.filter observedDim)).2
        else 0) := by
      rw [hden, if_pos hdenpos, if_pos hdenpos]
      exact div_le_div_of_nonneg_right hnum (le_of_lt hdenpos)
    rw [deriveCalibrated_recommendation_eq prims dims hobs,
      deriveCalibrated_recommendation_eq prims dims' hobs']
    simp only
    rw [hcore, hcov]
    refine condCap_rank_mono hlow _ _ _ ?_
    refine condCap_rank_mono (fun hx => hx) _ _ _ ?_
    refine condCap_rank_mono (fun hx => hx) _ _ _ ?_
    exact baseRecommendation_rank_mono hws

/-- Claim C2 as amended: decreasing the (present) score of one observed
dimension, keeping everything else fixed, never increases the calibrated
recommendation's rank.  The other half of the original claim — flipping an
observed dimension to not-observed — is refuted by the counterexample: it
removes the dimension from the weighted average and can raise the base
recommendation with no compensating cap. -/
theorem claim2_amended_score_decrease (prims : JsStringPrims)
    (dims : List ReportDimensionAssessment) (i : ℕ)
    (d d' : ReportDimensionAssessment)
    (hget : dims.get? i = some d)
    (hid : d'.id = d.id) (hno : d'.notObserved = d.notObserved)
    (hcov : d'.evidenceCoverage = d.evidenceCoverage)
    (hobserved : d.notObserved = false)
    (s s' : ℚ) (hs : d.score = some s) (hs' : d'.score = some s') (hle : s' ≤ s) :
    recommendationRank
        (deriveCalibratedRecommendation prims (dims.set i d')).recommendation ≤
      recommendationRank (deriveCalibratedRecommendation prims dims).recommendation :=
  deriveCalibrated_rank_mono prims
    (forall₂_set_of_rel ScoreWeakened.refl dims i d d' hget
      ⟨hid, hno, hcov, Or.inr ⟨hobserved, s, s', hs, hs', hle⟩⟩)

/-- Concrete observed assessment for the C2 witness. -/
def w2base : ReportDimensionAssessment :=
  { id := "clarity", label := "Clarity", score := some 4, notObserved := false,
    confidence := 70,
    anchors := { a1 := "a", a2 := "b", a3 := "c", a4 := "d", a5 := "e" },
    missingSignals := [], evidence := [],
    evidenceCoverage := { citedSegmentCount := 1, availableSegmentCount := 1 },
    observedSignals := [], concerns := [], counterSignals := [], observations := [],
    anchorAlignment := { chosenLevel := 4, whyMeets := [], whyNotHigher := [] },
    evidenceQuality := 0.7, consistency := 0.7, probes := [],
    whatWouldChangeScore := { up := [], down := [] } }

/-- Same assessment with the score decreased to 3. -/
def w2lower : ReportDimensionAssessment := { w2base with score := some 3 }

/-- Witness for the amended C2 at a concrete input. -/
theorem claim2_amended_witness :
    [w2base].get? 0 = some w2base ∧ w2base.notObserved = false ∧
    w2base.score = some 4 ∧ w2lower.score = some 3 ∧ (3 : ℚ) ≤ 4 ∧
    recommendationRank
        (deriveCalibratedRecommendation defaultPrims ([w2base].set 0 w2lower)).recommendation ≤
      recommendationRank
        (deriveCalibratedRecommendation defaultPrims [w2base]).recommendation :=
  ⟨rfl, rfl, rfl, rfl, by norm_num,
    claim2_amended_score_decrease defaultPrims [w2base] 0 w2base w2lower rfl rfl rfl rfl
      rfl 4 3 rfl rfl (by norm_num)⟩

/-- Request with a core and a non-core dimension for the C2
counterexample. -/
def c2Req : ReportRequestBody :=
  { questionId := "q1", questionText := "t"
    segments := [{ id := "s1", start := 0, stop := 1, text := "hello" }]
    rubric := { dimensions :=
      [{ key := "problemSolving", label := "PS", description := "d" },
       { key := "foo", label := "Foo", description := "d" }] } }

/-- Payload scoring the core dimension 5 and the non-core dimension 1. -/
def c2Payload : Json :=
  Json.obj [("dimensions", Json.arr
    [Json.obj [("id", Json.str "problemSolving"), ("score", Json.num 5)],
     Json.obj [("id", Json.str "foo"), ("score", Json.num 1)]])]

/-- Flips exactly the dimension with id "foo" to not-observed (score
becoming null), all other fields and dimensions unchanged. -/
def flipFoo (d : ReportDimensionAssessment) : ReportDimensionAssessment :=
  if d.id == "foo" then { d with notObserved := true, score := none } else d

unseal Rat.add Rat.mul Rat.inv Rat.sub Rat.ofScientific in
/-- Counterexample to C2 as stated: on the normalized dimensions of a real
scorecard (problemSolving observed at 5, foo observed at 1, full evidence
coverage), flipping the observed dimension "foo" to not-observed — all
else fixed — raises the calibrated recommendation from LeanHire (rank 2) to
StrongHire (rank 4). -/
theorem claim2_counterexample :
    ((normalizeReportResponse defaultPrims c2Payload c2Req).dimensions.map
      (fun d => (d.id, d.notObserved, d.score)) =
        [("problemSolving", false, some 5), ("foo", false, some 1)]) ∧
    (deriveCalibratedRecommendation defaultPrims
      ((normalizeReportResponse defaultPrims c2Payload c2Req).dimensions)).recommendation =
      OverallRecommendation.LeanHire ∧
    (deriveCalibratedRecommendation defaultPrims
      ((normalizeReportResponse defaultPrims c2Payload c2Req).dimensions.map
        flipFoo)).recommendation = OverallRecommendation.StrongHire ∧
    ¬(recommendationRank
        (deriveCalibratedRecommendation defaultPrims
          ((normalizeReportResponse defaultPrims c2Payload c2Req).dimensions.map
            flipFoo)).recommendation ≤
      recommendationRank
        (deriveCalibratedRecommendation defaultPrims
          ((normalizeReportResponse defaultPrims c2Payload c2Req).dimensions)).recommendation) := by
  exact ⟨by decide, by decide, by decide, by decide⟩

/-! ### C4 — mutual consistency of the coverage map indexes

Both builders run the same two-index loop; `coverageFold` abstracts it over
the per-dimension entry computation, and the consistency equivalence is
proved once for the abstract loop. -/

/-- The `bySegment` entry after registering dimension `dimensionId` for a
segment (the update performed by `addDimensionForSegment`). -/
def bumpEntry (dimensionId : String) :
    Option ReportCoverageBySegmentEntry → ReportCoverageBySegmentEntry
  | some existing =>
    if dimensionId ∈ existing.dimensions then existing
    else { dimensions := existing.dimensions ++ [dimensionId] }
  | none => { dimensions := [dimensionId] }

theorem lookupAssoc_cons {β : Type} (pk : String) (pv : β) (rest : List (String × β))
    (s : String) :
    lookupAssoc ((pk, pv) :: rest) s =
      if pk == s then some pv else lookupAssoc rest s := by
  simp only [lookupAssoc, List.find?]
  cases h : pk == s
  · simp
  · simp

theorem lookupAssoc_setAssoc {β : Type} (m : List (String × β)) (k : String) (v : β)
    (s : String) :
    lookupAssoc (setAssoc m k v) s = if s = k then some v else lookupAssoc m s := by
  induction m with
  | nil =>
    show lookupAssoc [(k, v)] s = _
    rw [lookupAssoc_cons]
    by_cases h : s = k
    · rw [if_pos (by simp [h]), if_pos h]
    · rw [if_neg (by simp [Ne.symm h]), if_neg h]
  | cons p rest ih =>
    obtain ⟨pk, pv⟩ := p
    show lookupAssoc (if pk == k then (k, v) :: rest else (pk, pv) :: setAssoc rest k v) s
      = _
    by_cases hpk : pk == k
    · rw [if_pos hpk, lookupAssoc_cons]
      have hk : pk = k := eq_of_beq hpk
      subst hk
      rw [lookupAssoc_cons]
      by_cases h : s = pk
      · rw [if_pos (by simp [h]), if_pos h]
      · rw [if_neg (by simp [Ne.symm h]), if_neg h, if_neg (by simp [Ne.symm h])]
    · rw [if_neg hpk, lookupAssoc_cons, lookupAssoc_cons, ih]
      by_cases h : pk == s
      · have hsk : ¬ s = k := by
          intro hk
          exact hpk (beq_iff_eq.mpr (by rw [eq_of_beq h]; exact hk))
        rw [if_pos h, if_neg hsk, if_pos h]
      · rw [if_neg h, if_neg h]

theorem lookupAssoc_addDimensionForSegment
    (m : List (String × ReportCoverageBySegmentEntry)) (sid k s : String) :
    lookupAssoc (addDimensionForSegment m sid k) s =
      if s = sid then some (bumpEntry k (lookupAssoc m sid)) else lookupAssoc m s := by
  unfold addDimensionForSegment
  cases hl : lookupAssoc m sid with
  | none =>
    rw [lookupAssoc_setAssoc]
    rfl
  | some e =>
    show lookupAssoc
        (if k ∈ e.dimensions then m
         else setAssoc m sid { dimensions := e.dimensions ++ [k] }) s = _
    by_cases hk : k ∈ e.dimensions
    · rw [if_pos hk]
      by_cases hs : s = sid
      · rw [if_pos hs, hs, hl]
        simp [bumpEntry, hk]
      · rw [if_neg hs]
    · rw [if_neg hk, lookupAssoc_setAssoc]
      by_cases hs : s = sid
      · rw [if_pos hs, if_pos hs]
        simp [bumpEntry, hk]
      · rw [if_neg hs, if_neg hs]

theorem bumpEntry_idem (k : String) (r : Option ReportCoverageBySegmentEntry) :
    bumpEntry k (some (bumpEntry k r)) = bumpEntry k r := by
  cases r with
  | none => simp [bumpEntry]
  | some e =>
    by_cases hk : k ∈ e.dimensions
    · simp [bumpEntry, hk]
    · simp [bumpEntry, hk]

/-- Membership in a bumped entry: either the new id or an old member. -/
theorem mem_bumpEntry {x k : String} {r : Option ReportCoverageBySegmentEntry}
    (h : x ∈ (bumpEntry k r).dimensions) :
    x = k ∨ ∃ e, r = some e ∧ x ∈ e.dimensions := by
  cases r with
  | none =>
    simp only [bumpEntry, List.mem_singleton] at h
    exact Or.inl h
  | some e =>
    by_cases hk : k ∈ e.dimensions
    · simp only [bumpEntry, if_pos hk] at h
      exact Or.inr ⟨e, rfl, h⟩
    · simp only [bumpEntry, if_neg hk, List.mem_append, List.mem_singleton] at h
      rcases h with h | h
      · exact Or.inr ⟨e, rfl, h⟩
      · exact Or.inl h

theorem lookupAssoc_addAll (k : String) :
    ∀ (ss : List String) (m : List (String × ReportCoverageBySegmentEntry)) (s : String),
    lookupAssoc (ss.foldl (fun m sid => addDimensionForSegment m sid k) m) s =
      if s ∈ ss then some (bumpEntry k (lookupAssoc m s)) else lookupAssoc m s
  | [], m, s => by simp
  | sid :: rest, m, s => by
    simp only [List.foldl_cons]
    rw [lookupAssoc_addAll k rest (addDimensionForSegment m sid k) s]
    by_cases hss : s = sid
    · subst hss
      rw [lookupAssoc_addDimensionForSegment m s k s, if_pos rfl]
      by_cases hrest : s ∈ rest
      · rw [if_pos hrest, if_pos (by simp), bumpEntry_idem]
      · rw [if_neg hrest, if_pos (by simp)]
    · rw [lookupAssoc_addDimensionForSegment m sid k s, if_neg hss]
      by_cases hrest : s ∈ rest
      · rw [if_pos hrest, if_pos (by simp [hrest])]
      · rw [if_neg hrest, if_neg (by simp [hss, hrest])]

/-- Generic form of the two coverage-map loops. -/
def coverageFold
    (entryOf : ReportDimensionAssessment → ReportCoverageByDimensionEntry)
    (dims : List ReportDimensionAssessment)
    (acc : List (String × ReportCoverageByDimensionEntry) ×
      List (String × ReportCoverageBySegmentEntry)) :
    List (String × ReportCoverageByDimensionEntry) ×
      List (String × ReportCoverageBySegmentEntry) :=
  dims.foldl
    (fun acc dimension =>
      (setAssoc acc.1 dimension.id (entryOf dimension),
       (entryOf dimension).segmentIds.foldl
         (fun m segmentId => addDimensionForSegment m segmentId dimension.id) acc.2))
    acc

theorem coverageFold_cons
    (entryOf : ReportDimensionAssessment → ReportCoverageByDimensionEntry)
    (d : ReportDimensionAssessment) (t : List ReportDimensionAssessment)
    (acc : List (String × ReportCoverageByDimensionEntry) ×
      List (String × ReportCoverageBySegmentEntry)) :
    coverageFold entryOf (d :: t) acc =
      coverageFold entryOf t
        (setAssoc acc.1 d.id (entryOf d),
         (entryOf d).segmentIds.foldl
           (fun m segmentId => addDimensionForSegment m segmentId d.id) acc.2) := rfl

/-- Characterization of the `byDimension` index: the last dimension with a
given id wins (JavaScript record assignment overwrites). -/
theorem coverageFold_lookup_byDimension
    (entryOf : ReportDimensionAssessment → ReportCoverageByDimensionEntry) :
    ∀ (dims : List ReportDimensionAssessment)
    (acc : List (String × ReportCoverageByDimensionEntry) ×
      List (String × ReportCoverageBySegmentEntry)) (k : String),
    lookupAssoc (coverageFold entryOf dims acc).1 k =
      (match dims.reverse.find? (fun dd => dd.id == k) with
       | some dd => some (entryOf dd)
       | none => lookupAssoc acc.1 k)
  | [], acc, k => rfl
  | d :: t, acc, k => by
    rw [coverageFold_cons, coverageFold_lookup_byDimension entryOf t _ k]
    simp only [List.reverse_cons, List.find?_append]
    cases hf : t.reverse.find? (fun dd => dd.id == k) with
    | some dd => rfl
    | none =>
      show lookupAssoc (setAssoc acc.1 d.id (entryOf d)) k = _
      rw [lookupAssoc_setAssoc]
      simp only [Option.none_or, List.find?]
      by_cases hk : k = d.id
      · rw [if_pos hk, (by simp [hk] : (d.id == k) = true)]
      · rw [if_neg hk, (by simp [Ne.symm hk] : (d.id == k) = false)]

/-- Freshness: none of the given dimension ids occurs in the accumulated
`bySegment` index. -/
def FreshIds (dims : List ReportDimensionAssessment)
    (m : List (String × ReportCoverageBySegmentEntry)) : Prop :=
  ∀ d ∈ dims, ∀ (s : String) (e : ReportCoverageBySegmentEntry),
    lookupAssoc m s = some e → d.id ∉ e.dimensions

/-- Characterization of the `bySegment` index for id-unique dimensions. -/
theorem coverageFold_lookup_bySegment
    (entryOf : ReportDimensionAssessment → ReportCoverageByDimensionEntry) :
    ∀ (dims : List ReportDimensionAssessment)
    (acc : List (String × ReportCoverageByDimensionEntry) ×
      List (String × ReportCoverageBySegmentEntry)) (s : String),
    (dims.map (fun d => d.id)).Nodup → FreshIds dims acc.2 →
    lookupAssoc (coverageFold entryOf dims acc).2 s =
      (if ((dims.filter (fun dd => decide (s ∈ (entryOf dd).segmentIds))).map
          (fun d => d.id)).isEmpty then
        lookupAssoc acc.2 s
      else
        match lookupAssoc acc.2 s with
        | some e => some { dimensions := e.dimensions ++
            ((dims.filter (fun dd => decide (s ∈ (entryOf dd).segmentIds))).map
              (fun d => d.id)) }
        | none => some { dimensions :=
            ((dims.filter (fun dd => decide (s ∈ (entryOf dd).segmentIds))).map
              (fun d => d.id)) })
  | [], acc, s, _, _ => by simp [coverageFold]
  | d :: t, acc, s, hnodup, hfresh => by
    have hdt : d.id ∉ t.map (fun d => d.id) := (List.nodup_cons.mp (by simpa using hnodup)).1
    have hnodup_t : (t.map (fun d => d.id)).Nodup :=
      (List.nodup_cons.mp (by simpa using hnodup)).2
    have hlookup2 : ∀ s', lookupAssoc
        ((entryOf d).segmentIds.foldl
          (fun m segmentId => addDimensionForSegment m segmentId d.id) acc.2) s' =
        if s' ∈ (entryOf d).segmentIds then
          some (bumpEntry d.id (lookupAssoc acc.2 s'))
        else lookupAssoc acc.2 s' :=
      fun s' => lookupAssoc_addAll d.id (entryOf d).segmentIds acc.2 s'
    have hfresh_t : FreshIds t
        ((entryOf d).segmentIds.foldl
          (fun m segmentId => addDimensionForSegment m segmentId d.id) acc.2) := by
      intro d' hd' s' e' hl'
      rw [hlookup2 s'] at hl'
      have hne : d'.id ≠ d.id := by
        intro heq
        exact hdt (heq ▸ List.mem_map.mpr ⟨d', hd', rfl⟩)
      split at hl'
      · intro hmem
        rcases mem_bumpEntry ((Option.some.injEq _ _).mp hl' ▸ hmem) with h | ⟨e0, he0, hm0⟩
        · exact hne h
        · exact hfresh d' (List.mem_cons_of_mem d hd') s' e0 he0 hm0
      · exact hfresh d' (List.mem_cons_of_mem d hd') s' e' hl'
    rw [coverageFold_cons,
      coverageFold_lookup_bySegment entryOf t _ s hnodup_t hfresh_t]
    show (if _ then lookupAssoc ((entryOf d).segmentIds.foldl
        (fun m segmentId => addDimensionForSegment m segmentId d.id) acc.2) s
      else _) = _
    by_cases hsd : s ∈ (entryOf d).segmentIds
    · rw [List.filter_cons_of_pos (by simpa using hsd)]
      rw [hlookup2 s, if_pos hsd]
      cases hacc : lookupAssoc acc.2 s with
      | none =>
        simp only [bumpEntry]
        by_cases hts : ((t.filter (fun dd => decide (s ∈ (entryOf dd).segmentIds))).map
            (fun d => d.id)).isEmpty
        · rw [if_pos hts, if_neg (by simp)]
          rw [List.isEmpty_iff] at hts
          simp [hts]
        · rw [if_neg hts, if_neg (by simp)]
          simp
      | some e =>
        have hde : d.id ∉ e.dimensions :=
          hfresh d (List.mem_cons_self d t) s e hacc
        simp only [bumpEntry, if_neg hde]
        by_cases hts : ((t.filter (fun dd => decide (s ∈ (entryOf dd).segmentIds))).map
            (fun d => d.id)).isEmpty
        · rw [if_pos hts, if_neg (by simp)]
          rw [List.isEmpty_iff] at hts
          simp [hts]
        · rw [if_neg hts, if_neg (by simp)]
          simp
    · rw [List.filter_cons_of_neg (by simpa using hsd)]
      rw [hlookup2 s, if_neg hsd]

/-- One-sided inversion for the `byDimension` characterization. -/
theorem reverse_find_of_mem {dims : List ReportDimensionAssessment}
    {dd : ReportDimensionAssessment} {k : String}
    (hnodup : (dims.map (fun d => d.id)).Nodup)
    (hmem : dd ∈ dims) (hid : dd.id = k) :
    dims.reverse.find? (fun x => x.id == k) = some dd := by
  cases hf : dims.reverse.find? (fun x => x.id == k) with
  | none =>
    exact absurd (by simp [hid]) (List.find?_eq_none.mp hf dd (List.mem_reverse.mpr hmem))
  | some x =>
    have hx : x ∈ dims := List.mem_reverse.mp (List.mem_of_find?_eq_some hf)
    have hxk : x.id = k := by simpa using List.find?_some hf
    have hxdd : x = dd := List.inj_on_of_nodup_map hnodup hx hmem (by rw [hxk, hid])
    rw [hxdd]

/-- Consistency of the two indexes produced by the generic loop. -/
theorem coverageFold_consistency
    (entryOf : ReportDimensionAssessment → ReportCoverageByDimensionEntry)
    (dims : List ReportDimensionAssessment)
    (hnodup : (dims.map (fun d => d.id)).Nodup) (dimId segId : String) :
    (∃ e, lookupAssoc (coverageFold entryOf dims ([], [])).1 dimId = some e ∧
      segId ∈ e.segmentIds) ↔
    (∃ e, lookupAssoc (coverageFold entryOf dims ([], [])).2 segId = some e ∧
      dimId ∈ e.dimensions) := by
  rw [coverageFold_lookup_byDimension entryOf dims ([], []) dimId]
  rw [coverageFold_lookup_bySegment entryOf dims ([], []) segId hnodup
    (by intro d _ s e he; simp [lookupAssoc] at he)]
  constructor
  · rintro ⟨e, he, hseg⟩
    cases hf : dims.reverse.find? (fun dd => dd.id == dimId) with
    | none => rw [hf] at he; exact absurd he (by simp [lookupAssoc])
    | some dd =>
      rw [hf] at he
      have hdd : dd ∈ dims := List.mem_reverse.mp (List.mem_of_find?_eq_some hf)
      have hddid : dd.id = dimId := by simpa using List.find?_some hf
      have he' : e = entryOf dd := ((Option.some.injEq _ _).mp he).symm
      have hdd_filter : dd ∈ dims.filter (fun x => decide (segId ∈ (entryOf x).segmentIds)) :=
        List.mem_filter.mpr ⟨hdd, by simp [he' ▸ hseg]⟩
      have hmem : dimId ∈ (dims.filter
          (fun x => decide (segId ∈ (entryOf x).segmentIds))).map (fun d => d.id) :=
        List.mem_map.mpr ⟨dd, hdd_filter, hddid⟩
      have hne : ¬ ((dims.filter (fun x => decide (segId ∈ (entryOf x).segmentIds))).map
          (fun d => d.id)).isEmpty = true := by
        intro hempty
        rw [List.isEmpty_iff] at hempty
        rw [hempty] at hmem
        simp at hmem
      rw [if_neg hne]
      exact ⟨_, rfl, hmem⟩
  · rintro ⟨e, he, hdim⟩
    by_cases hempty : ((dims.filter (fun x => decide (segId ∈ (entryOf x).segmentIds))).map
        (fun d => d.id)).isEmpty
    · rw [if_pos hempty] at he
      exact absurd he (by simp [lookupAssoc])
    · rw [if_neg hempty] at he
      have he' : e = { dimensions := (dims.filter
          (fun x => decide (segId ∈ (entryOf x).segmentIds))).map (fun d => d.id) } :=
        ((Option.some.injEq _ _).mp he).symm
      rw [he'] at hdim
      rcases List.mem_map.mp hdim with ⟨dd, hddf, hddid⟩
      have hdd : dd ∈ dims := (List.mem_filter.mp hddf).1
      have hseg : segId ∈ (entryOf dd).segmentIds := by
        have hmf := (List.mem_filter.mp hddf).2
        simpa using hmf
      rw [reverse_find_of_mem hnodup hdd hddid]
      exact ⟨entryOf dd, rfl, hseg⟩

/-- Per-dimension entry of the timed coverage path (the `entry` record built
inside `createCoverageMap`). -/
def timedEntry (segments : List ReportInputSegment)
    (dimension : ReportDimensionAssessment) : ReportCoverageByDimensionEntry :=
  let durationSeconds := deriveDurationSeconds segments
  let segmentIds := timedSegmentIds segments dimension
  let intervals := segmentIds.filterMap fun segmentId =>
    (lookupSegment segments segmentId).map fun segment =>
      ({ start := clamp segment.start 0 durationSeconds
         stop := clamp (mathMax segment.stop segment.start) 0 durationSeconds } : TimeInterval)
  let mergedIntervals := mergeIntervals intervals coverageEpsilonSeconds
  let coveredSeconds := mergedIntervals.foldl
    (fun sum interval => sum + mathMax (interval.stop - interval.start) 0) 0
  let coveragePct := clamp ((coveredSeconds / durationSeconds) * 100) 0 100
  { segmentIds := segmentIds
    coveragePct := ((round (coveragePct * 10) : ℤ) : ℚ) / 10 }

/-- Per-dimension entry of the count-based coverage path (the `entry` record
built inside `createCoverageMapFromEvidence`). -/
def countEntry (availableSegmentCount : ℚ)
    (dimension : ReportDimensionAssessment) : ReportCoverageByDimensionEntry :=
  let safeAvailableCount := mathMax 1 availableSegmentCount
  let segmentIds := dedupKeepFirst (dimension.evidence.map (·.segmentId))
  let coveragePct := clamp (((segmentIds.length : ℚ) / safeAvailableCount) * 100) 0 100
  { segmentIds := segmentIds
    coveragePct := ((round (coveragePct * 10) : ℤ) : ℚ) / 10 }

theorem createCoverageMap_eq_fold (dims : List ReportDimensionAssessment)
    (segments : List ReportInputSegment) :
    createCoverageMap dims segments =
      { byDimension := (coverageFold (timedEntry segments) dims ([], [])).1
        bySegment := (coverageFold (timedEntry segments) dims ([], [])).2 } := rfl

theorem createCoverageMapFromEvidence_eq_fold (dims : List ReportDimensionAssessment)
    (availableSegmentCount : ℚ) :
    createCoverageMapFromEvidence dims availableSegmentCount =
      { byDimension := (coverageFold (countEntry availableSegmentCount) dims ([], [])).1
        bySegment := (coverageFold (countEntry availableSegmentCount) dims ([], [])).2 } := rfl

/-- Claim C4: for dimension assessments with pairwise-distinct ids (rubric
keys are unique per the input contract, and every normalized Scorecard's
dimension ids are exactly the rubric keys), a segment id appears in
`byDimension[dimId].segmentIds` iff `dimId` appears in
`bySegment[segId].dimensions`, under both coverage-map builders. -/
theorem claim4_coverage_consistency (dims : List ReportDimensionAssessment)
    (segments : List ReportInputSegment) (availableSegmentCount : ℚ)
    (dimId segId : String)
    (hnodup : (dims.map (fun d => d.id)).Nodup) :
    ((∃ e, lookupAssoc (createCoverageMap dims segments).byDimension dimId = some e ∧
      segId ∈ e.segmentIds) ↔
    (∃ e, lookupAssoc (createCoverageMap dims segments).bySegment segId = some e ∧
      dimId ∈ e.dimensions)) ∧
    ((∃ e, lookupAssoc
        (createCoverageMapFromEvidence dims availableSegmentCount).byDimension dimId =
          some e ∧ segId ∈ e.segmentIds) ↔
    (∃ e, lookupAssoc
        (createCoverageMapFromEvidence dims availableSegmentCount).bySegment segId =
          some e ∧ dimId ∈ e.dimensions)) := by
  rw [createCoverageMap_eq_fold, createCoverageMapFromEvidence_eq_fold]
  exact ⟨coverageFold_consistency (timedEntry segments) dims hnodup dimId segId,
    coverageFold_consistency (countEntry availableSegmentCount) dims hnodup dimId segId⟩

/-- Witness for C4 at concrete inputs: the single-dimension scorecard used
for the calibration witness together with the witness request's segments. -/
theorem claim4_coverage_consistency_witness :
    ((w3dims.map (fun d => d.id)).Nodup) ∧
    (((∃ e, lookupAssoc (createCoverageMap w3dims wwReq.segments).byDimension "clarity" =
        some e ∧ "s1" ∈ e.segmentIds) ↔
    (∃ e, lookupAssoc (createCoverageMap w3dims wwReq.segments).bySegment "s1" = some e ∧
      "clarity" ∈ e.dimensions)) ∧
    ((∃ e, lookupAssoc
        (createCoverageMapFromEvidence w3dims 1).byDimension "clarity" =
          some e ∧ "s1" ∈ e.segmentIds) ↔
    (∃ e, lookupAssoc
        (createCoverageMapFromEvidence w3dims 1).bySegment "s1" =
          some e ∧ "clarity" ∈ e.dimensions))) :=
  ⟨by decide, claim4_coverage_consistency w3dims wwReq.segments 1 "clarity" "s1" (by decide)⟩

/-! ### C10 — the input `overallRecommendation` field has no effect

The normalizer reads a fixed set of named fields from the payload, and
`overallRecommendation` is not among them; the output recommendation is
recomputed by the calibration algorithm from the normalized dimensions. -/

/-- `buildTopLevelArrays` reads only fields other than
`overallRecommendation` from the report payload. -/
theorem buildTopLevelArrays_congr (p q : Json) (dims : List ReportDimensionAssessment)
    (rec : OverallRecommendation)
    (h : ∀ k, k ≠ "overallRecommendation" → p.getField k = q.getField k) :
    buildTopLevelArrays p dims rec = buildTopLevelArrays q dims rec := by
  simp only [buildTopLevelArrays]
  rw [h "decisionRationale" (by decide), h "keyStrengths" (by decide),
    h "keyRisks" (by decide), h "followUps" (by decide), h "risks" (by decide),
    h "mustFixToHire" (by decide)]

/-- `normalizeModernReport` reads only fields other than
`overallRecommendation` from the report payload. -/
theorem normalizeModernReport_congr (prims : JsStringPrims) (p q : Json)
    (context : NormalizeContext)
    (h : ∀ k, k ≠ "overallRecommendation" → p.getField k = q.getField k) :
    normalizeModernReport prims p context = normalizeModernReport prims q context := by
  simp only [normalizeModernReport]
  rw [h "dimensions" (by decide),
    buildTopLevelArrays_congr p q _ _ h,
    h "leveling" (by decide), h "calibrationNotes" (by decide),
    h "overallSummary" (by decide)]

/-- The legacy decoder reads only `summary` and `items`. -/
theorem decodeLegacyReport_congr (fp fq : List (String × Json))
    (h : ∀ k, k ≠ "overallRecommendation" →
      (Json.obj fp).getField k = (Json.obj fq).getField k) :
    decodeLegacyReport (Json.obj fp) = decodeLegacyReport (Json.obj fq) := by
  unfold decodeLegacyReport
  rw [h "summary" (by decide), h "items" (by decide)]
  rfl

/-- For object payloads agreeing outside `overallRecommendation`, the
dispatch in `normalizeFromUnknown` produces the same result: the legacy
decoder ignores the field, and both the modern branch and the record
fallback run the same `normalizeModernReport` call. -/
theorem normalizeFromUnknown_congr (prims : JsStringPrims)
    (fp fq : List (String × Json)) (context : NormalizeContext)
    (h : ∀ k, k ≠ "overallRecommendation" →
      (Json.obj fp).getField k = (Json.obj fq).getField k) :
    normalizeFromUnknown prims (Json.obj fp) context =
      normalizeFromUnknown prims (Json.obj fq) context := by
  unfold normalizeFromUnknown
  rw [decodeLegacyReport_congr fp fq h]
  cases hdl : decodeLegacyReport (Json.obj fq) with
  | some legacy => rfl
  | none =>
    have hmr := normalizeModernReport_congr prims (Json.obj fp) (Json.obj fq) context h
    by_cases hm1 : isModernReportResponseBody (Json.obj fp) <;>
      by_cases hm2 : isModernReportResponseBody (Json.obj fq) <;>
      simp [hm1, hm2, isRecord, hmr]

/-- The recommendation emitted by `normalizeModernReport` is the calibrated
recommendation of its own output dimensions. -/
theorem normalizeModernReport_rec_derived (prims : JsStringPrims) (src : Json)
    (context : NormalizeContext) :
    (normalizeModernReport prims src context).overallRecommendation =
      (deriveCalibratedRecommendation prims
        (normalizeModernReport prims src context).dimensions).recommendation := rfl

/-- Claim C10: two object payloads differing only in their
`overallRecommendation` field normalize to identical Scorecards, and for
every payload the output `overallRecommendation` equals the calibrated
recommendation derived from the output's dimension assessments — it is
never copied from the input. -/
theorem claim10_recommendation_independence (prims : JsStringPrims) (p q : Json)
    (requestBody : ReportRequestBody)
    (hp : ∃ f, p = Json.obj f) (hq : ∃ f, q = Json.obj f)
    (h : ∀ k, k ≠ "overallRecommendation" → p.getField k = q.getField k) :
    normalizeReportResponse prims p requestBody =
      normalizeReportResponse prims q requestBody ∧
    ∀ r : Json, (normalizeReportResponse prims r requestBody).overallRecommendation =
      (deriveCalibratedRecommendation prims
        (normalizeReportResponse prims r requestBody).dimensions).recommendation := by
  obtain ⟨fp, rfl⟩ := hp
  obtain ⟨fq, rfl⟩ := hq
  constructor
  · simp only [normalizeReportResponse]
    rw [normalizeFromUnknown_congr prims fp fq (normalizedContextFromRequest requestBody) h]
  · intro r
    exact normalizeModernReport_rec_derived prims _ _

/-- Payload for the C10 witness carrying an explicit recommendation. -/
def c10p : Json :=
  Json.obj [("overallRecommendation", Json.str "strong_hire"),
    ("overallSummary", Json.str "Summary text.")]

/-- Same payload with a different explicit recommendation. -/
def c10q : Json :=
  Json.obj [("overallRecommendation", Json.str "no_hire"),
    ("overallSummary", Json.str "Summary text.")]

/-- Witness for C10: the two concrete payloads agree outside
`overallRecommendation` and normalize identically. -/
theorem claim10_recommendation_independence_witness :
    (Json.getField c10p "overallSummary" = Json.getField c10q "overallSummary") ∧
    (normalizeReportResponse defaultPrims c10p wwReq =
      normalizeReportResponse defaultPrims c10q wwReq ∧
    ∀ r : Json, (normalizeReportResponse defaultPrims r wwReq).overallRecommendation =
      (deriveCalibratedRecommendation defaultPrims
        (normalizeReportResponse defaultPrims r wwReq).dimensions).recommendation) := by
  have h : ∀ k, k ≠ "overallRecommendation" →
      Json.getField c10p k = Json.getField c10q k := by
    intro k hk
    simp only [c10p, c10q, Json.getField, List.find?]
    rw [(beq_eq_false_iff_ne.mpr (Ne.symm hk) :
      ("overallRecommendation" == k) = false)]
  exact ⟨h "overallSummary" (by decide),
    claim10_recommendation_independence defaultPrims c10p c10q wwReq
      ⟨_, rfl⟩ ⟨_, rfl⟩ h⟩

end VoiceReport
